import Mathlib

/-!
Verification development for the govbid bid-extraction pipeline.

This file gives a shallow embedding, in Lean 4, of the parsing, filtering
and reconciliation core of the scraper backend:

* `app/scrapers/base.py` — `parse_date`, `_parse_flexible_date`,
  `parse_amount`, `_parse_detail_page`, `_extract_fiscal_year_from_title`,
  `_is_old_fiscal_year`;
* `app/services/filter_service.py` — `categorize_bid`,
  `extract_deadline_from_title`, `extract_start_date_from_title`,
  `is_bid_active`, `is_recently_announced`, `is_qa_or_supplementary`,
  `is_past_fiscal_year`, `filter_bids`;
* `app/services/scraper_service.py` — `cleanup_unwanted_bids`, `save_bids`.

Conventions of the embedding:

* Python `datetime.date` values are `Date` records of integers; the
  constructor's validation is `mkDate`, comparison is the lexicographic
  `dateLt`/`dateLe` (which coincides with Python's ordering on valid
  dates), and `timedelta` subtraction goes through the proleptic Gregorian
  ordinal (`toOrdinal`/`fromOrdinal`, Python's `date.toordinal` /
  `date.fromordinal`).
* Each `re` pattern used by the source is compiled by hand into a
  deterministic matcher over `List Char`.  `re.search` scanning is the
  `scanSearch` combinator (try a match at every suffix, leftmost first);
  greedy/lazy repetition and optional pieces are unrolled into the
  backtracking the concrete pattern actually performs, documented at each
  matcher.  Python's Unicode `\d` is modelled by the ASCII and full-width
  digit ranges (the only decimal-digit scripts occurring in this domain),
  and `\s` by the whitespace characters occurring in Japanese government
  text.
* Python `float` arithmetic in `parse_amount` is modelled by exact decimal
  arithmetic over `Nat` (value `I + F/10^k`, multiplied and truncated
  exactly).  On every amount whose decimal literal is exactly
  representable in binary (in particular all literals relevant below,
  e.g. `1.5`), CPython's double computation returns the same integer.
* Mutation of `BidInfo` objects is threaded explicitly: functions that
  mutate a bid return the updated record.
-/

/-- Calendar date as Python's `datetime.date` triple.  Fields are
unbounded integers; validity (what `date(y, m, d)` accepts) is the
separate predicate `isValidDate`. -/
structure Date where
  year : Int
  month : Int
  day : Int
deriving Repr, DecidableEq

def isLeapYear (y : Int) : Bool :=
  (y % 4 == 0 && y % 100 != 0) || (y % 400 == 0)

def daysInMonth (y m : Int) : Int :=
  if m == 2 then (if isLeapYear y then 29 else 28)
  else if m == 4 || m == 6 || m == 9 || m == 11 then 30
  else 31

def isValidDate (d : Date) : Bool :=
  1 ≤ d.year && d.year ≤ 9999 && 1 ≤ d.month && d.month ≤ 12 &&
    1 ≤ d.day && d.day ≤ daysInMonth d.year d.month

/-- Python's `date(y, m, d)` constructor: the date when the arguments are
valid, `None` (a caught `ValueError`) otherwise. -/
def mkDate (y m d : Int) : Option Date :=
  if isValidDate ⟨y, m, d⟩ then some ⟨y, m, d⟩ else none

/-- Python date comparison `a < b` (lexicographic on year, month, day;
equal to ordinal comparison on valid dates). -/
def dateLt (a b : Date) : Bool :=
  decide (a.year < b.year) ||
    (a.year == b.year &&
      (decide (a.month < b.month) ||
        (a.month == b.month && decide (a.day < b.day))))

/-- Python date comparison `a <= b`. -/
def dateLe (a b : Date) : Bool :=
  dateLt a b || a == b

/-- Cumulative day count before month `m` in year `y`
(`datetime._days_before_month`). -/
def daysBeforeMonth (y m : Int) : Int :=
  let base :=
    if m == 1 then 0 else if m == 2 then 31 else if m == 3 then 59
    else if m == 4 then 90 else if m == 5 then 120 else if m == 6 then 151
    else if m == 7 then 181 else if m == 8 then 212 else if m == 9 then 243
    else if m == 10 then 273 else if m == 11 then 304 else 334
  if 2 < m && isLeapYear y then base + 1 else base

/-- Python `date.toordinal`: day number with 0001-01-01 = 1 (proleptic
Gregorian). -/
def toOrdinal (d : Date) : Int :=
  365 * (d.year - 1) + (d.year - 1) / 4 - (d.year - 1) / 100 +
    (d.year - 1) / 400 + daysBeforeMonth d.year d.month + d.day

/-- Python `date.fromordinal` (Hinnant's `civil_from_days`, shifted so
that ordinal 719163 is 1970-01-01). -/
def fromOrdinal (n : Int) : Date :=
  let z := n + 305
  let era := (if 0 ≤ z then z else z - 146096) / 146097
  let doe := z - era * 146097
  let yoe := (doe - doe / 1460 + doe / 36524 - doe / 146096) / 365
  let y := yoe + era * 400
  let doy := doe - (365 * yoe + yoe / 4 - yoe / 100)
  let mp := (5 * doy + 2) / 153
  let dd := doy - (153 * mp + 2) / 5 + 1
  let mm := if mp < 10 then mp + 3 else mp - 9
  ⟨if mm ≤ 2 then y + 1 else y, mm, dd⟩

/-- `today - timedelta(days=n)`. -/
def subDays (d : Date) (n : Int) : Date :=
  fromOrdinal (toOrdinal d - n)

/-! ## Character classes and normalisation -/

/-- Decimal digit as matched by Python's Unicode `\d` on this corpus:
ASCII `0-9` or full-width `０-９`. -/
def isDigitCh (c : Char) : Bool :=
  (48 ≤ c.toNat && c.toNat ≤ 57) || (0xFF10 ≤ c.toNat && c.toNat ≤ 0xFF19)

/-- Numeric value of a digit character accepted by `isDigitCh`. -/
def digitVal (c : Char) : Nat :=
  if 48 ≤ c.toNat && c.toNat ≤ 57 then c.toNat - 48 else c.toNat - 0xFF10

/-- Whitespace as matched by Python's `\s` / stripped by `str.strip()`
(the whitespace characters occurring in this corpus, including the
ideographic space). -/
def isSpaceCh (c : Char) : Bool :=
  c == ' ' || c == '\t' || c == '\n' || c == '\r' ||
    c == '\x0b' || c == '\x0c' || c == '　'

/-- `str.maketrans('０１２３４５６７８９', '0123456789')` applied to one
character. -/
def toHalfDigit (c : Char) : Char :=
  if 0xFF10 ≤ c.toNat && c.toNat ≤ 0xFF19 then Char.ofNat (c.toNat - 0xFF10 + 48)
  else c

/-- `str.maketrans('０１２３４５６７８９，', '0123456789,')` applied to
one character (used by `parse_amount`). -/
def toHalfAmount (c : Char) : Char :=
  if c == '，' then ',' else toHalfDigit c

/-- `str.maketrans('０１２３４５６７８９，：', '0123456789,:')` applied
to one character (used by `_parse_detail_page`). -/
def toHalfDetail (c : Char) : Char :=
  if c == '：' then ':' else toHalfAmount c

/-- `str.strip()`. -/
def stripChars (s : List Char) : List Char :=
  ((s.dropWhile isSpaceCh).reverse.dropWhile isSpaceCh).reverse

/-- Python substring test `pat in s`. -/
def containsSub (pat : List Char) : List Char → Bool
  | [] => pat.isEmpty
  | c :: rest => pat.isPrefixOf (c :: rest) || containsSub pat rest

/-- Python substring test on `String`s. -/
def containsStr (pat s : String) : Bool :=
  containsSub pat.toList s.toList

/-- Position of the first occurrence of `pat` (Python `str.find`),
`none` when absent. -/
def findSubPos (pat : List Char) : List Char → Option Nat
  | [] => if pat.isEmpty then some 0 else none
  | c :: rest =>
    if pat.isPrefixOf (c :: rest) then some 0
    else (findSubPos pat rest).map (· + 1)

/-- `re.search` scanning: try the compiled matcher at every suffix,
leftmost position first. -/
def scanSearch (f : List Char → Option α) : List Char → Option α
  | [] => f []
  | c :: rest =>
    match f (c :: rest) with
    | some a => some a
    | none => scanSearch f rest

/-- Match a literal and return the rest of the input. -/
def afterLit (pat : String) (s : List Char) : Option (List Char) :=
  if pat.toList.isPrefixOf s then some (s.drop pat.toList.length) else none

/-- Maximal run of digit characters (`\d*`, greedily), returning the run
and the rest. -/
def takeDigits : List Char → (List Char × List Char)
  | [] => ([], [])
  | c :: cs =>
    if isDigitCh c then
      let (ds, r) := takeDigits cs
      (c :: ds, r)
    else ([], c :: cs)

def digitsToNat (ds : List Char) : Nat :=
  ds.foldl (fun a c => a * 10 + digitVal c) 0

/-- `(\d+)lit`: greedy nonempty digit run followed by the literal
character `lit`.  (Backtracking inside `\d+` can never help, because a
dropped digit would have to equal the non-digit `lit`.) -/
def numPlusBefore (lit : Char) (s : List Char) : Option (Nat × List Char) :=
  let (ds, r) := takeDigits s
  if ds.isEmpty then none
  else
    match r with
    | c :: r2 => if c == lit then some (digitsToNat ds, r2) else none
    | [] => none

/-- Char-capturing variant of `numPlusBefore`: also returns the matched
digit characters (needed when the source passes the matched substring
on). -/
def numPlusBeforeC (lit : Char) (s : List Char) :
    Option (List Char × List Char) :=
  let (ds, r) := takeDigits s
  if ds.isEmpty then none
  else
    match r with
    | c :: r2 => if c == lit then some (ds, r2) else none
    | [] => none

/-- `(\d{1,2})lit`: up to two digits, greedily, followed by `lit`.  The
regex first tries two digits; on failure of the following literal it
backtracks to one digit, which can only succeed when the second
character is `lit` itself — impossible since `lit` is never a digit.  So:
two digits must be followed by `lit`, or a single digit followed by
`lit`. -/
def num12Before (lit : Char) (s : List Char) : Option (Nat × List Char) :=
  match s with
  | c1 :: rest1 =>
    if isDigitCh c1 then
      match rest1 with
      | c2 :: rest2 =>
        if isDigitCh c2 then
          match rest2 with
          | c3 :: rest3 =>
            if c3 == lit then some (digitVal c1 * 10 + digitVal c2, rest3)
            else none
          | [] => none
        else if c2 == lit then some (digitVal c1, rest2)
        else none
      | [] => none
    else none
  | [] => none

/-- Char-capturing variant of `num12Before`. -/
def num12BeforeC (lit : Char) (s : List Char) :
    Option (List Char × List Char) :=
  match s with
  | c1 :: rest1 =>
    if isDigitCh c1 then
      match rest1 with
      | c2 :: rest2 =>
        if isDigitCh c2 then
          match rest2 with
          | c3 :: rest3 =>
            if c3 == lit then some ([c1, c2], rest3) else none
          | [] => none
        else if c2 == lit then some ([c1], rest2)
        else none
      | [] => none
    else none
  | [] => none

def ofChars (l : List Char) : String := ⟨l⟩

/-! ## `BaseScraper.parse_date` (base.py lines 63-111) -/

/-- Matcher for `令和(\d+)年[^月]*?(\d+)月(\d+)日` positioned right after
the literal `令和`: the lazy `[^月]*?` tries to match `(\d+)月(\d+)日`
immediately, and on failure skips one character, which must not be
`月`. -/
def reiwaMD : List Char → Option (Nat × Nat)
  | [] => none
  | c :: rest =>
    match
      (match numPlusBefore '月' (c :: rest) with
       | some (m, r2) =>
         match numPlusBefore '日' r2 with
         | some (d, _) => some (m, d)
         | none => none
       | none => none) with
    | some md => some md
    | none => if c == '月' then none else reiwaMD rest

/-- One position of `re.search(r'令和(\d+)年[^月]*?(\d+)月(\d+)日', …)`. -/
def reiwaDateAt (s : List Char) : Option (Nat × Nat × Nat) :=
  match afterLit "令和" s with
  | none => none
  | some r1 =>
    match numPlusBefore '年' r1 with
    | none => none
    | some (y, r2) =>
      match reiwaMD r2 with
      | some (m, d) => some (y, m, d)
      | none => none

/-- One position of `re.search(r'(\d{4})年(\d{1,2})月(\d{1,2})日', …)`. -/
def westernAt (s : List Char) : Option (Nat × Nat × Nat) :=
  match s with
  | c1 :: c2 :: c3 :: c4 :: c5 :: rest =>
    if isDigitCh c1 && isDigitCh c2 && isDigitCh c3 && isDigitCh c4 &&
        c5 == '年' then
      match num12Before '月' rest with
      | some (m, r2) =>
        match num12Before '日' r2 with
        | some (d, _) =>
          some (digitVal c1 * 1000 + digitVal c2 * 100 + digitVal c3 * 10 +
            digitVal c4, m, d)
        | none => none
      | none => none
    else none
  | _ => none

/-- CPython `_strptime`'s `%m` directive, `1[0-2]|0[1-9]|[1-9]`, with the
follow-up alternation: first try two digits, then one. -/
def pm2 (s : List Char) : Option (Nat × List Char) :=
  match s with
  | c1 :: c2 :: rest =>
    if (c1 == '1' && 48 ≤ c2.toNat && c2.toNat ≤ 50) ||
        (c1 == '0' && 49 ≤ c2.toNat && c2.toNat ≤ 57) then
      some (digitVal c1 * 10 + digitVal c2, rest)
    else none
  | _ => none

def pm1 (s : List Char) : Option (Nat × List Char) :=
  match s with
  | c1 :: rest =>
    if 49 ≤ c1.toNat && c1.toNat ≤ 57 then some (digitVal c1, rest) else none
  | _ => none

/-- CPython `_strptime`'s `%d` directive, `3[01]|[12]\d|0[1-9]|[1-9]`:
two-digit forms first, then one digit. -/
def pd2 (s : List Char) : Option (Nat × List Char) :=
  match s with
  | c1 :: c2 :: rest =>
    if (c1 == '3' && (48 ≤ c2.toNat && c2.toNat ≤ 49)) ||
        ((49 ≤ c1.toNat && c1.toNat ≤ 50) && (48 ≤ c2.toNat && c2.toNat ≤ 57)) ||
        (c1 == '0' && 49 ≤ c2.toNat && c2.toNat ≤ 57) then
      some (digitVal c1 * 10 + digitVal c2, rest)
    else none
  | _ => none

/-- `%Y`: exactly four digits. -/
def py4 (s : List Char) : Option (Nat × List Char) :=
  match s with
  | c1 :: c2 :: c3 :: c4 :: rest =>
    if isDigitCh c1 && isDigitCh c2 && isDigitCh c3 && isDigitCh c4 then
      some (digitVal c1 * 1000 + digitVal c2 * 100 + digitVal c3 * 10 +
        digitVal c4, rest)
    else none
  | _ => none

/-- End of a `strptime` format: the optional trailing literal, then the
whole input must be consumed. -/
def strptimeEnd (sep3end : Option Char) (r : List Char) : Bool :=
  match sep3end with
  | some c3 =>
    match r with
    | c4 :: r6 => c4 == c3 && r6.isEmpty
    | [] => false
  | none => r.isEmpty

/-- The `sep2 %d end` tail of a `strptime` format, starting after `%m`:
the `%d` alternation tries its two-digit forms first, then the one-digit
form `[1-9]` (which is `pm1`). -/
def strptimeTail (sep2 : Char) (sep3end : Option Char) (m : Nat)
    (r3 : List Char) : Option (Nat × Nat) :=
  match r3 with
  | c2 :: r4 =>
    if c2 == sep2 then
      match pd2 r4 with
      | some (d, r5) =>
        if strptimeEnd sep3end r5 then some (m, d)
        else
          match pm1 r4 with
          | some (d2, r6) =>
            if strptimeEnd sep3end r6 then some (m, d2) else none
          | none => none
      | none =>
        match pm1 r4 with
        | some (d2, r6) =>
          if strptimeEnd sep3end r6 then some (m, d2) else none
        | none => none
    else none
  | [] => none

/-- `datetime.strptime(s, "%Y" sep1 "%m" sep2 "%d" [sep3end])`: the whole
input must be consumed; the `%m` alternation tries its two-digit forms
(`pm2`) before the one-digit form (`pm1`).  Range validation of the
resulting triple is the caller's `mkDate`. -/
def strptimeYMD (sep1 sep2 : Char) (sep3end : Option Char) (s : List Char) :
    Option (Nat × Nat × Nat) :=
  match py4 s with
  | none => none
  | some (y, r1) =>
    match r1 with
    | c :: r2 =>
      if c == sep1 then
        match pm2 r2 with
        | some (m, r3) =>
          match strptimeTail sep2 sep3end m r3 with
          | some md => some (y, md.1, md.2)
          | none =>
            match pm1 r2 with
            | some (m2, r3b) =>
              (strptimeTail sep2 sep3end m2 r3b).map (fun md => (y, md.1, md.2))
            | none => none
        | none =>
          match pm1 r2 with
          | some (m2, r3b) =>
            (strptimeTail sep2 sep3end m2 r3b).map (fun md => (y, md.1, md.2))
          | none => none
      else none
    | [] => none

/-- The `formats` fallback loop of `parse_date`: try the five `strptime`
formats in order, validating each hit with the `datetime` constructor
(`mkDate`); a hit with an out-of-range day is a `ValueError`, i.e. the
next format is tried. -/
def strptimeChain (t : List Char) : Option Date :=
  let tryFmt := fun (r : Option (Nat × Nat × Nat)) =>
    match r with
    | some (y, m, d) => mkDate (y : Int) (m : Int) (d : Int)
    | none => none
  match tryFmt (strptimeYMD '年' '月' (some '日') t) with
  | some dd => some dd
  | none =>
    match tryFmt (strptimeYMD '/' '/' none t) with
    | some dd => some dd
    | none =>
      match tryFmt (strptimeYMD '-' '-' none t) with
      | some dd => some dd
      | none =>
        match tryFmt (strptimeYMD '.' '.' none t) with
        | some dd => some dd
        | none =>
          match afterLit "令和" t with
          | some r => tryFmt (strptimeYMD '年' '月' (some '日') r)
          | none => none

/-- `BaseScraper.parse_date` (base.py lines 63-111): strip, full-width to
half-width digits, then (a) the Reiwa regex when `令和` occurs, falling
through on no match or invalid day; (b) the western-year regex, falling
through to (c) on invalid day; (c) the `strptime` format list. -/
def parse_date (s : String) : Option Date :=
  if s == "" then none
  else
    let t := (stripChars s.toList).map toHalfDigit
    let r1 :=
      if containsSub "令和".toList t then
        match scanSearch reiwaDateAt t with
        | some (y, m, d) => mkDate ((y : Int) + 2018) (m : Int) (d : Int)
        | none => none
      else none
    match r1 with
    | some dd => some dd
    | none =>
      match scanSearch westernAt t with
      | some (y, m, d) =>
        match mkDate (y : Int) (m : Int) (d : Int) with
        | some dd => some dd
        | none => strptimeChain t
      | none => strptimeChain t

/-! ## `BaseScraper._parse_flexible_date` (base.py lines 113-163) -/

/-- `re.match(r'(\d{1,2})月(\d{1,2})日', …)`: anchored at the start,
trailing text allowed. -/
def mdMatch (s : List Char) : Option (Nat × Nat) :=
  match num12Before '月' s with
  | some (m, r) =>
    match num12Before '日' r with
    | some (d, _) => some (m, d)
    | none => none
  | none => none

/-- `BaseScraper._parse_flexible_date`: strip and normalise digits, try
`parse_date`, and otherwise infer the year of a bare `M月D日` from
today's month: more than 2 months ahead means last year, everything else
(including already-elapsed dates) keeps the current year. -/
def parse_flexible_date (s : String) (today : Date) : Option Date :=
  if s == "" then none
  else
    let t := (stripChars s.toList).map toHalfDigit
    match parse_date (ofChars t) with
    | some dd => some dd
    | none =>
      match mdMatch t with
      | none => none
      | some (m, d) =>
        let month_diff : Int := (m : Int) - today.month
        let year := if month_diff > 2 then today.year - 1 else today.year
        mkDate year (m : Int) (d : Int)

example : parse_date "令和7年1月24日" = some ⟨2025, 1, 24⟩ := rfl
example : parse_date "令和8年（2026年）1月28日" = some ⟨2026, 1, 28⟩ := rfl
example : parse_date "2026年1月28日" = some ⟨2026, 1, 28⟩ := rfl
example : parse_date "2025/3/7" = some ⟨2025, 3, 7⟩ := rfl
example : parse_date "2025-03-07" = some ⟨2025, 3, 7⟩ := rfl
example : parse_date "２０２５年１月５日" = some ⟨2025, 1, 5⟩ := rfl
example : parse_date "3月7日" = none := rfl
example : parse_flexible_date "12月31日" ⟨2025, 10, 12⟩ = some ⟨2025, 12, 31⟩ := rfl
example : parse_flexible_date "1月10日" ⟨2025, 10, 12⟩ = some ⟨2025, 1, 10⟩ := rfl
example : parse_flexible_date "12月31日" ⟨2025, 1, 10⟩ = some ⟨2024, 12, 31⟩ := rfl
example : parse_flexible_date "10月1日" ⟨2025, 10, 12⟩ = some ⟨2025, 10, 1⟩ := rfl
example : parse_flexible_date "12月31日" ⟨2025, 10, 12⟩ = some ⟨2025, 12, 31⟩ := rfl

/-! ## `BaseScraper.parse_amount` (base.py lines 165-203) -/

/-- Character class `[\d,.]` (after full-width normalisation). -/
def isNumDotCh (c : Char) : Bool :=
  isDigitCh c || c == ',' || c == '.'

/-- Character class `[\d,]`. -/
def isNumCommaCh (c : Char) : Bool :=
  isDigitCh c || c == ','

/-- Maximal run satisfying `cls`, and the rest. -/
def takeCls (cls : Char → Bool) : List Char → (List Char × List Char)
  | [] => ([], [])
  | c :: cs =>
    if cls c then
      let (ds, r) := takeCls cls cs
      (c :: ds, r)
    else ([], c :: cs)

/-- One position of `re.search(r'([cls]+)\s*lit', …)`: greedy nonempty
class run, optional whitespace, then the unit character.  (Backtracking
inside the run cannot help: a dropped run character matches neither `\s`
nor the non-class unit.) -/
def numTokAt (cls : Char → Bool) (lit : Char) (s : List Char) :
    Option (List Char) :=
  let (tok, r) := takeCls cls s
  if tok.isEmpty then none
  else
    match r.dropWhile isSpaceCh with
    | c :: _ => if c == lit then some tok else none
    | [] => none

/-- Exact value of the decimal literal Python's `float` sees after the
commas are removed, as integer part, fraction digits value, and fraction
length: `I + F / 10^k`.  `none` models the `ValueError` float raises on
an empty or doubly-dotted literal. -/
def decimalParts (tok : List Char) : Option (Nat × Nat × Nat) :=
  let t := tok.filter (fun c => !(c == ','))
  let ip := t.takeWhile (fun c => !(c == '.'))
  let rest := t.dropWhile (fun c => !(c == '.'))
  match rest with
  | [] => if ip.isEmpty then none else some (digitsToNat ip, 0, 0)
  | _ :: fp =>
    if fp.contains '.' then none
    else if ip.isEmpty && fp.isEmpty then none
    else some (digitsToNat ip, digitsToNat fp, fp.length)

/-- `int(float(tok) * mult)` computed exactly: `I*mult + F*mult/10^k`
truncated (all values nonnegative, so truncation is floor). -/
def decimalTimes (mult : Nat) (p : Nat × Nat × Nat) : Nat :=
  p.1 * mult + p.2.1 * mult / 10 ^ p.2.2

/-- One unit branch of `parse_amount`: when the unit character occurs in
the text, search for `([cls]+)\s*unit`; a hit is converted and returned
(`some (some v)`), a malformed literal raises (`some none`), and text
containing the unit but no preceding numeric literal falls through to
the next branch (`none`). -/
def amountUnitStage (cls : Char → Bool) (unit : Char) (mult : Nat)
    (t : List Char) : Option (Option Int) :=
  if containsSub [unit] t then
    match scanSearch (numTokAt cls unit) t with
    | some tok => some ((decimalParts tok).map (fun p => (decimalTimes mult p : Int)))
    | none => none
  else none

/-- The final branch of `parse_amount`: `re.search(r'([\d,]+)', …)`,
commas removed, `int(...)`.  A run consisting only of commas makes
`int('')` raise; modelled as no amount. -/
def amountPlainStage (t : List Char) : Option Int :=
  match scanSearch (fun s =>
      let (tok, _) := takeCls isNumCommaCh s
      if tok.isEmpty then none else some tok) t with
  | some tok =>
    let ds := tok.filter (fun c => !(c == ','))
    if ds.isEmpty then none else some ((digitsToNat ds : Nat) : Int)
  | none => none

/-- `BaseScraper.parse_amount` (base.py lines 165-203): strip, normalise
digits and full-width comma, then the 億 / 万 / 千 / plain branches in
order.  `億` and `万` accept decimal literals (`[\d,.]+`), `千` does not
(`[\d,]+`); multipliers are 10^8, 10^4, 10^3. -/
def parse_amount (s : String) : Option Int :=
  if s == "" then none
  else
    let t := (stripChars s.toList).map toHalfAmount
    match amountUnitStage isNumDotCh '億' 100000000 t with
    | some r => r
    | none =>
      match amountUnitStage isNumDotCh '万' 10000 t with
      | some r => r
      | none =>
        match amountUnitStage isNumCommaCh '千' 1000 t with
        | some r => r
        | none => amountPlainStage t

example : parse_amount "1.5億円" = some 150000000 := rfl
example : parse_amount "7,800千円" = some 7800000 := rfl
example : parse_amount "300万円" = some 3000000 := rfl
example : parse_amount "50,000円" = some 50000 := rfl
example : parse_amount "５０，０００円" = some 50000 := rfl
example : parse_amount "金額未定" = none := rfl
example : parse_amount "億1万" = some 10000 := rfl

/-! ## Fiscal years (base.py lines 389-446, filter_service.py lines 260-293) -/

/-- One position of `re.search(r'令和\s*(\d+)\s*年度', …)`. -/
def reiwaNendoAt (s : List Char) : Option Nat :=
  match afterLit "令和" s with
  | none => none
  | some r1 =>
    let (ds, r2) := takeDigits (r1.dropWhile isSpaceCh)
    if ds.isEmpty then none
    else
      match afterLit "年度" (r2.dropWhile isSpaceCh) with
      | some _ => some (digitsToNat ds)
      | none => none

/-- One position of `re.search(r'(20\d{2})\s*年度', …)`. -/
def westernNendoAt (s : List Char) : Option Nat :=
  match s with
  | c1 :: c2 :: c3 :: c4 :: rest =>
    if c1 == '2' && c2 == '0' && isDigitCh c3 && isDigitCh c4 then
      match afterLit "年度" (rest.dropWhile isSpaceCh) with
      | some _ => some (2000 + digitVal c3 * 10 + digitVal c4)
      | none => none
    else none
  | _ => none

/-- One position of `re.search(r'[Rr]\s*(\d+)\s*(?:年度)?', …)` — note
that the `年度` suffix is optional, so any `R`/`r` followed by digits
matches. -/
def rNumAt (s : List Char) : Option Nat :=
  match s with
  | c :: rest =>
    if c == 'R' || c == 'r' then
      let (ds, _) := takeDigits (rest.dropWhile isSpaceCh)
      if ds.isEmpty then none else some (digitsToNat ds)
    else none
  | [] => none

/-- `BaseScraper._extract_fiscal_year_from_title` (base.py lines
389-414): full-width digits normalised, then the `令和X年度`,
`20XX年度` and `R<n>` patterns in order. -/
def extract_fiscal_year_from_title (title : String) : Option Int :=
  let t := title.toList.map toHalfDigit
  match scanSearch reiwaNendoAt t with
  | some n => some ((n : Int) + 2018)
  | none =>
    match scanSearch westernNendoAt t with
    | some n => some (n : Int)
    | none =>
      match scanSearch rNumAt t with
      | some n => some ((n : Int) + 2018)
      | none => none

/-- Japanese fiscal year of `today` (April to March): the calendar year
when the month is at least 4, else the previous calendar year (base.py
lines 437-442 and filter_service.py lines 273-278 compute this the same
way). -/
def currentFiscalYear (today : Date) : Int :=
  if today.month ≥ 4 then today.year else today.year - 1

/-- `BaseScraper._is_old_fiscal_year` (base.py lines 431-446): reject
when a fiscal year is extracted from the title and it is strictly less
than the current fiscal year. -/
def is_old_fiscal_year (title : String) (today : Date) : Bool :=
  match extract_fiscal_year_from_title title with
  | none => false
  | some fy => decide (fy < currentFiscalYear today)

/-- The six literal strings `is_past_fiscal_year` scans for: the three
fiscal years preceding the current one, rendered with half-width digits,
plus hard-coded full-width `令和６/５/４年度`. -/
def pastYearStrings (today : Date) : List String :=
  let current_reiwa := currentFiscalYear today - 2018
  ["令和" ++ toString (current_reiwa - 1) ++ "年度",
   "令和" ++ toString (current_reiwa - 2) ++ "年度",
   "令和" ++ toString (current_reiwa - 3) ++ "年度",
   "令和６年度", "令和５年度", "令和４年度"]

/-- `is_past_fiscal_year` (filter_service.py lines 260-293): reject when
the title contains one of the six `pastYearStrings` literals. -/
def is_past_fiscal_year (title : String) (today : Date) : Bool :=
  (pastYearStrings today).any (fun p => containsStr p title)

example : extract_fiscal_year_from_title "令和3年度〇〇業務委託" = some 2021 := rfl
example : extract_fiscal_year_from_title "２０２４年度事業" = some 2024 := rfl
example : extract_fiscal_year_from_title "R6委託" = some 2024 := rfl
example : is_old_fiscal_year "令和3年度〇〇業務委託に関するプロポーザル募集" ⟨2025, 10, 12⟩ = true := rfl
example : is_past_fiscal_year "令和3年度〇〇業務委託に関するプロポーザル募集" ⟨2025, 10, 12⟩ = false := rfl
example : is_past_fiscal_year "令和6年度〇〇業務委託" ⟨2025, 10, 12⟩ = true := rfl
example : is_past_fiscal_year "令和７年度〇〇業務委託" ⟨2025, 10, 12⟩ = false := rfl

/-! ## `extract_deadline_from_title` (filter_service.py lines 58-136) -/

def isOpenBr (c : Char) : Bool :=
  c == '【' || c == '[' || c == '（' || c == '('

def isCloseBr (c : Char) : Bool :=
  c == '】' || c == ']' || c == '）' || c == ')'

/-- `(締切|提出期限|期限)[】\]）)]` at the current position. -/
def p1KwClose (s : List Char) : Bool :=
  (match afterLit "締切" s with
   | some (c :: _) => isCloseBr c
   | _ => false) ||
  (match afterLit "提出期限" s with
   | some (c :: _) => isCloseBr c
   | _ => false) ||
  (match afterLit "期限" s with
   | some (c :: _) => isCloseBr c
   | _ => false)

/-- The `[^】\]）)]*(締切|提出期限|期限)[】\]）)]` tail of the bracket
pattern: the greedy star consumes any run of non-closing characters and
backtracks until the keyword plus a closing bracket matches.  (Only
whether some split succeeds matters — the captured groups precede the
star.) -/
def p1Star (s : List Char) : Bool :=
  match s with
  | [] => p1KwClose []
  | c :: rest =>
    if isCloseBr c then p1KwClose (c :: rest)
    else p1Star rest || p1KwClose (c :: rest)

/-- One position of pattern 1,
`[【\[（(](\d{1,2})月(\d{1,2})日[^】\]）)]*(締切|提出期限|期限)[】\]）)]`. -/
def p1At (s : List Char) : Option (Nat × Nat) :=
  match s with
  | c :: rest =>
    if isOpenBr c then
      match num12Before '月' rest with
      | some (m, r1) =>
        match num12Before '日' r1 with
        | some (d, r2) => if p1Star r2 then some (m, d) else none
        | none => none
      | none => none
    else none
  | [] => none

/-- `[：:\s]` — the separator class of patterns 2 and 3. -/
def isColonSpCh (c : Char) : Bool :=
  c == '：' || c == ':' || isSpaceCh c

/-- `(\d{1,2})月(\d{1,2})日` yielding the two numbers. -/
def mdPair (s : List Char) : Option (Nat × Nat) :=
  match num12Before '月' s with
  | some (m, r) =>
    match num12Before '日' r with
    | some (d, _) => some (m, d)
    | none => none
  | none => none

/-- `[：:\s]+` then `(\d{1,2})月(\d{1,2})日` (the tail of pattern 2). -/
def p2Tail (s : List Char) : Option (Nat × Nat) :=
  match s with
  | c :: rest => if isColonSpCh c then mdPair (rest.dropWhile isColonSpCh) else none
  | [] => none

/-- One position of pattern 2,
`(?:締切[日]?|提出期限|応募期限|申込期限|受付期限)[：:\s]+(\d{1,2})月(\d{1,2})日`.
`締切[日]?` is greedy: the variant with `日` is tried first, and on
failure of the rest the variant without it. -/
def p2At (s : List Char) : Option (Nat × Nat) :=
  match afterLit "締切" s with
  | some r =>
    (match afterLit "日" r with
     | some r2 =>
       match p2Tail r2 with
       | some md => some md
       | none => p2Tail r
     | none => p2Tail r)
  | none =>
    match afterLit "提出期限" s with
    | some r => p2Tail r
    | none =>
      match afterLit "応募期限" s with
      | some r => p2Tail r
      | none =>
        match afterLit "申込期限" s with
        | some r => p2Tail r
        | none =>
          match afterLit "受付期限" s with
          | some r => p2Tail r
          | none => none

/-- `[：:\s]*令和(\d+)年(\d{1,2})月(\d{1,2})日` (the tail of pattern 3). -/
def p3Tail (s : List Char) : Option (Nat × Nat × Nat) :=
  match afterLit "令和" (s.dropWhile isColonSpCh) with
  | some r =>
    match numPlusBefore '年' r with
    | some (y, r2) =>
      match mdPair r2 with
      | some (m, d) => some (y, m, d)
      | none => none
    | none => none
  | none => none

/-- One position of pattern 3,
`(?:締切|提出期限|応募期限|申込期限|受付期限)[：:\s]*令和(\d+)年(\d{1,2})月(\d{1,2})日`. -/
def p3At (s : List Char) : Option (Nat × Nat × Nat) :=
  match afterLit "締切" s with
  | some r => p3Tail r
  | none =>
    match afterLit "提出期限" s with
    | some r => p3Tail r
    | none =>
      match afterLit "応募期限" s with
      | some r => p3Tail r
      | none =>
        match afterLit "申込期限" s with
        | some r => p3Tail r
        | none =>
          match afterLit "受付期限" s with
          | some r => p3Tail r
          | none => none

/-- One position of pattern 4,
`令和(\d+)年(\d{1,2})月(\d{1,2})日(?:まで|締切|期限)?` — the optional
suffix constrains nothing. -/
def p4At (s : List Char) : Option (Nat × Nat × Nat) :=
  match afterLit "令和" s with
  | some r =>
    match numPlusBefore '年' r with
    | some (y, r2) =>
      match mdPair r2 with
      | some (m, d) => some (y, m, d)
      | none => none
    | none => none
  | none => none

/-- `(\d{1,2})月(\d{1,2})日(?:まで|迄)` (the core of pattern 5). -/
def p5Core (s : List Char) : Option (Nat × Nat) :=
  match num12Before '月' s with
  | some (m, r) =>
    match num12Before '日' r with
    | some (d, r2) =>
      match afterLit "まで" r2 with
      | some _ => some (m, d)
      | none =>
        match afterLit "迄" r2 with
        | some _ => some (m, d)
        | none => none
    | none => none
  | none => none

/-- One position of pattern 5,
`(?:～|〜|まで\s*)?(\d{1,2})月(\d{1,2})日(?:まで|迄)`: the optional
prefix is tried greedily first, then dropped. -/
def p5At (s : List Char) : Option (Nat × Nat) :=
  let withPre :=
    match afterLit "～" s with
    | some r => p5Core r
    | none =>
      match afterLit "〜" s with
      | some r => p5Core r
      | none =>
        match afterLit "まで" s with
        | some r => p5Core (r.dropWhile isSpaceCh)
        | none => none
  match withPre with
  | some md => some md
  | none => p5Core s

/-- The year-inference shared by patterns 1, 2 and 5: current year, and
if that date is already past, roll forward one year; a `ValueError` in
either construction falls through to the next pattern. -/
def rollForward (today : Date) (m d : Nat) : Option Date :=
  match mkDate today.year (m : Int) (d : Int) with
  | none => none
  | some dd =>
    if dateLt dd today then mkDate (today.year + 1) (m : Int) (d : Int)
    else some dd

/-- `extract_deadline_from_title` (filter_service.py lines 58-136): the
five patterns in order; a pattern that matches but yields an invalid
date falls through to the next. -/
def extract_deadline_from_title (title : String) (today : Date) : Option Date :=
  let t := title.toList
  let r1 :=
    match scanSearch p1At t with
    | some (m, d) => rollForward today m d
    | none => none
  match r1 with
  | some dd => some dd
  | none =>
    let r2 :=
      match scanSearch p2At t with
      | some (m, d) => rollForward today m d
      | none => none
    match r2 with
    | some dd => some dd
    | none =>
      let r3 :=
        match scanSearch p3At t with
        | some (y, m, d) => mkDate ((y : Int) + 2018) (m : Int) (d : Int)
        | none => none
      match r3 with
      | some dd => some dd
      | none =>
        let r4 :=
          match scanSearch p4At t with
          | some (y, m, d) => mkDate ((y : Int) + 2018) (m : Int) (d : Int)
          | none => none
        match r4 with
        | some dd => some dd
        | none =>
          match scanSearch p5At t with
          | some (m, d) => rollForward today m d
          | none => none

example : extract_deadline_from_title "広報ポスターデザイン募集【2月15日締切】" ⟨2025, 1, 10⟩ =
    some ⟨2025, 2, 15⟩ := rfl
example : extract_deadline_from_title "【1月5日締切】案件" ⟨2025, 1, 10⟩ =
    some ⟨2026, 1, 5⟩ := rfl
example : extract_deadline_from_title "提出期限：1月31日" ⟨2025, 1, 10⟩ =
    some ⟨2025, 1, 31⟩ := rfl
example : extract_deadline_from_title "締切日：令和7年1月20日" ⟨2025, 1, 10⟩ =
    some ⟨2025, 1, 20⟩ := rfl
example : extract_deadline_from_title "令和7年3月15日公示の案件" ⟨2025, 1, 10⟩ =
    some ⟨2025, 3, 15⟩ := rfl
example : extract_deadline_from_title "募集のお知らせ（2月28日まで）" ⟨2025, 1, 10⟩ =
    some ⟨2025, 2, 28⟩ := rfl
example : extract_deadline_from_title "広報案件" ⟨2025, 1, 10⟩ = none := rfl

/-! ## `extract_start_date_from_title` (filter_service.py lines 139-175) -/

/-- One position of `re.search(r'(\d{1,2})月(\d{1,2})日(?:掲載|公開|公告)', …)`. -/
def startMdAt (s : List Char) : Option (Nat × Nat) :=
  match num12Before '月' s with
  | some (m, r) =>
    match num12Before '日' r with
    | some (d, r2) =>
      if (afterLit "掲載" r2).isSome || (afterLit "公開" r2).isSome ||
          (afterLit "公告" r2).isSome then
        some (m, d)
      else none
    | none => none
  | none => none

/-- `extract_start_date_from_title` (filter_service.py lines 139-175):
a generic Reiwa date, else `X月Y日掲載/公開/公告` with a backward year
bias (a future date is moved to the previous year).  Construction
failures fall through / return nothing, as the `try/except` blocks do. -/
def extract_start_date_from_title (title : String) (today : Date) :
    Option Date :=
  let t := title.toList
  let r1 :=
    match scanSearch p4At t with
    | some (y, m, d) => mkDate ((y : Int) + 2018) (m : Int) (d : Int)
    | none => none
  match r1 with
  | some dd => some dd
  | none =>
    match scanSearch startMdAt t with
    | some (m, d) =>
      match mkDate today.year (m : Int) (d : Int) with
      | none => none
      | some sd =>
        if dateLt today sd then mkDate (today.year - 1) (m : Int) (d : Int)
        else some sd
    | none => none

/-! ## Keyword tables and categorisation (filter_service.py lines 9-55) -/

/-- Python `str.lower()` restricted to the cased characters occurring in
the keyword tables and titles of this corpus: ASCII and full-width Latin
capitals. -/
def charLower (c : Char) : Char :=
  if (65 ≤ c.toNat && c.toNat ≤ 90) || (0xFF21 ≤ c.toNat && c.toNat ≤ 0xFF3A) then
    Char.ofNat (c.toNat + 32)
  else c

/-- The `KEYWORDS` table (filter_service.py lines 9-24), in insertion
order. -/
def KEYWORDS : List (String × List String) :=
  [("広報",
    ["広報", "PR", "メディア", "報道", "情報発信", "周知", "広告",
     "パブリシティ", "プレスリリース", "ニュースレター", "情報誌"]),
   ("プロモーション",
    ["プロモーション", "promotion", "宣伝", "販促", "ブランディング",
     "観光PR", "シティプロモーション", "移住促進", "魅力発信",
     "キャンペーン", "SNS", "ウェブサイト", "ホームページ"]),
   ("イベント",
    ["イベント", "企画運営", "催事", "フェア", "フェスティバル",
     "祭り", "展示会", "セミナー", "シンポジウム", "フォーラム",
     "式典", "記念事業", "啓発", "体験"])]

/-- `categorize_bid` (filter_service.py lines 27-43): the first category
whose keyword list has a case-insensitive substring hit in the title. -/
def categorize_bid (title : String) : Option String :=
  let tl := title.toList.map charLower
  (KEYWORDS.find? (fun p =>
    p.2.any (fun kw => containsSub (kw.toList.map charLower) tl))).map (·.1)

/-- `is_qa_or_supplementary` (filter_service.py lines 231-257). -/
def is_qa_or_supplementary (title : String) : Bool :=
  ["に関する質問と回答", "に係る質問と回答", "質問への回答について",
   "質問書に対する回答について", "質問に対する回答について",
   "に係る質問への回答", "Ｑ＆Ａについて", "Q&Aについて",
   "審査結果について", "選定結果について", "契約締結について",
   "落札者決定", "落札について", "決定しました"].any
    (fun p => containsStr p title)

/-! ## `BidInfo` and the activity / recency tests -/

/-- The `BidInfo` dataclass (base.py lines 17-30). -/
structure BidInfo where
  title : String
  municipality : String
  announcement_url : String
  source_url : String
  category : Option String := none
  max_amount : Option Int := none
  period_start : Option Date := none
  period_end : Option Date := none
  application_start : Option Date := none
  application_end : Option Date := none
  status : String := "募集中"
deriving Repr, DecidableEq

/-- `is_bid_active` (filter_service.py lines 178-200).  The Python
function mutates `bid.application_end` when it falls back to the title
extractor; the updated bid is returned alongside the boolean. -/
def is_bid_active (bid : BidInfo) (today : Date) : Bool × BidInfo :=
  match bid.application_end with
  | some d => (dateLe today d, bid)
  | none =>
    match extract_deadline_from_title bid.title today with
    | some d => (dateLe today d, { bid with application_end := some d })
    | none => (false, bid)

/-- `is_recently_announced` (filter_service.py lines 203-228), with the
default `days = 30`.  Mutates `application_start` (to the extracted
start date, or to today when none is found). -/
def is_recently_announced (bid : BidInfo) (today : Date) (days : Int := 30) :
    Bool × BidInfo :=
  let cutoff := subDays today days
  match bid.application_start with
  | some s => (dateLe cutoff s, bid)
  | none =>
    match extract_start_date_from_title bid.title today with
    | some sd => (dateLe cutoff sd, { bid with application_start := some sd })
    | none => (true, { bid with application_start := some today })

/-- The per-bid body of `filter_bids`' loop (filter_service.py lines
307-330): `some` of the mutated bid when it is appended to the output,
`none` when the loop `continue`s past it. -/
def filterBidsStep (today : Date) (bid : BidInfo) : Option BidInfo :=
  if is_qa_or_supplementary bid.title then none
  else if is_past_fiscal_year bid.title today then none
  else
    match categorize_bid bid.title with
    | none => none
    | some cat =>
      let bid1 := { bid with category := some cat }
      let (active, bid2) := is_bid_active bid1 today
      if !active then none
      else
        let (recent, bid3) := is_recently_announced bid2 today
        if !recent then none
        else some { bid3 with status := "募集中" }

/-- `filter_bids` (filter_service.py lines 296-332). -/
def filter_bids (today : Date) : List BidInfo → List BidInfo
  | [] => []
  | b :: rest =>
    match filterBidsStep today b with
    | some b2 => b2 :: filter_bids today rest
    | none => filter_bids today rest

example : categorize_bid "広報ポスターデザイン募集" = some "広報" := rfl
example : categorize_bid "観光prイベント" = some "広報" := rfl
example : categorize_bid "〇〇業務委託" = none := rfl
example : is_qa_or_supplementary "【審査結果について】委託業者選定" = true := rfl

/-! ## `BaseScraper._parse_detail_page` (base.py lines 213-339) -/

/-- Generic keyword alternation `(?:kw1|kw2|…)` followed by `tail`: the
alternatives are tried in the source's order, and an alternative whose
tail fails backtracks to the next alternative at the same position. -/
def altKw (kws : List String) (tail : List Char → Option α) (s : List Char) :
    Option α :=
  match kws with
  | [] => none
  | kw :: rest =>
    match afterLit kw s with
    | some r =>
      match tail r with
      | some a => some a
      | none => altKw rest tail s
    | none => altKw rest tail s

/-- Optional `[：:は]?` before `tail`, greedy with backtracking. -/
def colonOpt (tail : List Char → Option α) (s : List Char) : Option α :=
  match s with
  | c :: rest =>
    if c == '：' || c == ':' || c == 'は' then
      match tail rest with
      | some a => some a
      | none => tail s
    else tail s
  | [] => tail []

/-- `(.+?)(?:\n|$)` at a fixed position: shortest nonempty run of
non-newline characters up to the first newline or the end. -/
def lazySegGo (accRev : List Char) : List Char → List Char
  | [] => accRev.reverse
  | c :: rest =>
    if c == '\n' then accRev.reverse else lazySegGo (c :: accRev) rest

def lazySegment : List Char → Option (List Char)
  | [] => none
  | c :: rest => if c == '\n' then none else some (lazySegGo [c] rest)

/-- Backtracking for a greedy `\s*` before `f`: try consuming the whole
whitespace run, then one character fewer, down to none. -/
def wsBackGo (f : List Char → Option α) : Nat → List Char → Option α
  | 0, s => f s
  | k + 1, s =>
    match f (s.drop (k + 1)) with
    | some a => some a
    | none => wsBackGo f k s

def wsBack (f : List Char → Option α) (s : List Char) : Option α :=
  wsBackGo f (s.takeWhile isSpaceCh).length s

/-- `\s*[　\s]*(.+?)(?:\n|$)` — the capture tail shared by the fallback
deadline pattern, the start patterns and period pattern 2. -/
def fbTail (s : List Char) : Option (List Char) :=
  wsBack lazySegment s

def fbAfterKw (s : List Char) : Option (List Char) :=
  colonOpt fbTail s

/-- Capture `令和(\d+)年(\d{1,2})月(\d{1,2})日` returning the matched
substring (the source re-parses the text of the group). -/
def reiwaFullDateC (s : List Char) : Option (List Char × List Char) :=
  match afterLit "令和" s with
  | some r =>
    match numPlusBeforeC '年' r with
    | some (ys, r2) =>
      match num12BeforeC '月' r2 with
      | some (ms, r3) =>
        match num12BeforeC '日' r3 with
        | some (ds, r4) =>
          some ('令' :: '和' :: (ys ++ '年' :: (ms ++ '月' :: (ds ++ ['日']))), r4)
        | none => none
      | none => none
    | none => none
  | none => none

/-- Capture `\d{1,2}月\d{1,2}日`. -/
def mdDateC (s : List Char) : Option (List Char × List Char) :=
  match num12BeforeC '月' s with
  | some (ms, r) =>
    match num12BeforeC '日' r with
    | some (ds, r2) => some (ms ++ '月' :: (ds ++ ['日']), r2)
    | none => none
  | none => none

/-- Capture the bare-day alternative `\d{1,2}日`. -/
def dayOnlyC (s : List Char) : Option (List Char × List Char) :=
  match num12BeforeC '日' s with
  | some (ds, r) => some (ds ++ ['日'], r)
  | none => none

/-- `[（\(][^）\)]*[）\)]` — a parenthesised weekday after a date. -/
def parenAfter (s : List Char) : Option (List Char) :=
  match s with
  | c :: rest =>
    if c == '（' || c == '(' then
      match rest.dropWhile (fun c2 => !(c2 == '）' || c2 == ')')) with
      | _ :: r2 => some r2
      | [] => none
    else none
  | [] => none

/-- `(?:～|~|から|－|ー|−|〜)` (range patterns 1 and 2). -/
def rangeSepA (s : List Char) : Option (List Char) :=
  afterLit "～" s <|> afterLit "~" s <|> afterLit "から" s <|>
    afterLit "－" s <|> afterLit "ー" s <|> afterLit "−" s <|> afterLit "〜" s

/-- `(?:から|～|~)` (range patterns 3 and 4). -/
def rangeSepB (s : List Char) : Option (List Char) :=
  afterLit "から" s <|> afterLit "～" s <|> afterLit "~" s

/-- Range pattern 1:
`(令和\d+年\d{1,2}月\d{1,2}日)[（\(][^）\)]*[）\)]\s*(?:～|~|から|－|ー|−|〜)\s*(令和\d+年\d{1,2}月\d{1,2}日)`. -/
def rp1At (s : List Char) : Option (List Char × List Char) :=
  match reiwaFullDateC s with
  | some (g1, r) =>
    match parenAfter r with
    | some r2 =>
      match rangeSepA (r2.dropWhile isSpaceCh) with
      | some r3 =>
        match reiwaFullDateC (r3.dropWhile isSpaceCh) with
        | some (g2, _) => some (g1, g2)
        | none => none
      | none => none
    | none => none
  | none => none

/-- Range pattern 2: as pattern 1 without the parenthesised weekday. -/
def rp2At (s : List Char) : Option (List Char × List Char) :=
  match reiwaFullDateC s with
  | some (g1, r) =>
    match rangeSepA (r.dropWhile isSpaceCh) with
    | some r2 =>
      match reiwaFullDateC (r2.dropWhile isSpaceCh) with
      | some (g2, _) => some (g1, g2)
      | none => none
    | none => none
  | none => none

/-- Range pattern 3:
`(\d{1,2}月\d{1,2}日)[（\(][^）\)]*[）\)]\s*(?:から|～|~)\s*(\d{1,2}月\d{1,2}日|\d{1,2}日)`. -/
def rp3At (s : List Char) : Option (List Char × List Char) :=
  match mdDateC s with
  | some (g1, r) =>
    match parenAfter r with
    | some r2 =>
      match rangeSepB (r2.dropWhile isSpaceCh) with
      | some r3 =>
        match (mdDateC (r3.dropWhile isSpaceCh)).orElse
            (fun _ => dayOnlyC (r3.dropWhile isSpaceCh)) with
        | some (g2, _) => some (g1, g2)
        | none => none
      | none => none
    | none => none
  | none => none

/-- Range pattern 4: as pattern 3 without the parenthesised weekday. -/
def rp4At (s : List Char) : Option (List Char × List Char) :=
  match mdDateC s with
  | some (g1, r) =>
    match rangeSepB (r.dropWhile isSpaceCh) with
    | some r2 =>
      match (mdDateC (r2.dropWhile isSpaceCh)).orElse
          (fun _ => dayOnlyC (r2.dropWhile isSpaceCh)) with
      | some (g2, _) => some (g1, g2)
      | none => none
    | none => none
  | none => none

/-- `re.match(r'^\d{1,2}日$', …)`: the end of a range given as a bare
day of month. -/
def isBareDay (g : List Char) : Bool :=
  match g with
  | [c1, c2, c3] => isDigitCh c1 && isDigitCh c2 && c3 == '日'
  | [c1, c2] => isDigitCh c1 && c2 == '日'
  | _ => false

/-- The per-match body of the range-pattern loop (base.py lines 252-265):
take the end date (group 2); when it is a bare day, inherit the month
found in the start date (group 1); parse flexibly. -/
def tryRangeOne (r : Option (List Char × List Char)) (today : Date) :
    Option Date :=
  match r with
  | some (g1, g2) =>
    let g2' :=
      if isBareDay g2 then
        match scanSearch (num12BeforeC '月') g1 with
        | some (mc, _) => mc ++ '月' :: g2
        | none => g2
      else g2
    parse_flexible_date (ofChars g2') today
  | none => none

/-- The inner pattern loop over the four range patterns: a pattern that
matches but does not parse falls through to the next pattern. -/
def tryRangePatterns (w : List Char) (today : Date) : Option Date :=
  match tryRangeOne (scanSearch rp1At w) today with
  | some d => some d
  | none =>
    match tryRangeOne (scanSearch rp2At w) today with
    | some d => some d
    | none =>
      match tryRangeOne (scanSearch rp3At w) today with
      | some d => some d
      | none => tryRangeOne (scanSearch rp4At w) today

/-- `keywords_for_deadline` (base.py lines 238-241). -/
def detailDeadlineKws : List String :=
  ["参加表明書", "参加申出書", "参加意向申出書", "提出期間", "受付期間",
   "申込期限", "応募期限", "提出期限", "受付期限"]

/-- The keyword loop of the range search (base.py lines 243-267): for
each keyword present in the text, scan the 300-character window starting
at its first occurrence; the first keyword whose window yields a parsed
end date wins. -/
def rangeDeadline (t : List Char) (today : Date) : List String → Option Date
  | [] => none
  | kw :: rest =>
    match findSubPos kw.toList t with
    | some pos =>
      match tryRangePatterns ((t.drop pos).take 300) today with
      | some d => some d
      | none => rangeDeadline t today rest
    | none => rangeDeadline t today rest

/-- The fallback deadline pattern (base.py lines 270-280), keyword
alternation in source order with `提案書類?提出期限` and `締切日?`
unrolled. -/
def fbAt (s : List Char) : Option (List Char) :=
  altKw ["参加意向申出書提出期限", "参加表明書の受付期間",
    "参加表明書などの提出期間", "参加申出書の受付", "参加申込書提出期限",
    "提案書類提出期限", "提案書提出期限", "書類提出期限", "提出期限",
    "提出期間", "申込期限", "応募期限", "申請期限", "受付期限",
    "締切日", "締切"] fbAfterKw s

def fallbackDeadline (t : List Char) : Option Date :=
  match scanSearch fbAt t with
  | some g1 => parse_date (ofChars g1)
  | none => none

/-- The whole `application_end` part of `_parse_detail_page` (base.py
lines 223-280): range search first, then the fallback pattern. -/
def detailApplicationEnd (t : List Char) (today : Date) : Option Date :=
  match rangeDeadline t today detailDeadlineKws with
  | some d => some d
  | none => fallbackDeadline t

/-- `start_patterns` (base.py lines 284-287): pattern A keyword list. -/
def startAAt (s : List Char) : Option (List Char) :=
  altKw ["公告日", "募集開始日", "募集開始", "公募開始日", "公募開始",
    "公示日", "掲載日", "掲示日"] fbAfterKw s

/-- Pattern B: `(?:公告|公示|公募)\s*(?:日|開始)[：:は]?…`. -/
def startBAt (s : List Char) : Option (List Char) :=
  altKw ["公告", "公示", "公募"]
    (fun r =>
      let r2 := r.dropWhile isSpaceCh
      match afterLit "日" r2 with
      | some r3 => fbAfterKw r3
      | none =>
        match afterLit "開始" r2 with
        | some r3 => fbAfterKw r3
        | none => none) s

/-- The `application_start` part (base.py lines 283-294): pattern loop
where a match that fails to parse falls through to the next pattern. -/
def detailStart (t : List Char) : Option Date :=
  match
    (match scanSearch startAAt t with
     | some g => parse_date (ofChars g)
     | none => none) with
  | some d => some d
  | none =>
    match scanSearch startBAt t with
    | some g => parse_date (ofChars g)
    | none => none

/-- Keyword alternation of the contract-period patterns (base.py lines
298-301). -/
def periodKws : List String :=
  ["履行期間", "契約期間", "業務期間", "実施期間", "委託期間", "事業期間",
   "業務委託期間"]

/-- `(.+?)(?:\n|$|まで)` — the lazy second group of period pattern 1:
shortest nonempty non-newline run up to a newline, the end, or `まで`. -/
def periodG2Go (accRev : List Char) : List Char → List Char
  | [] => accRev.reverse
  | c :: rest =>
    if c == '\n' || "まで".toList.isPrefixOf (c :: rest) then accRev.reverse
    else periodG2Go (c :: accRev) rest

def periodG2 : List Char → Option (List Char)
  | [] => none
  | c :: rest =>
    if c == '\n' || "まで".toList.isPrefixOf (c :: rest) then none
    else some (periodG2Go [c] rest)

/-- Separator plus `\s*` plus lazy group 2 of period pattern 1. -/
def periodSepTail (s : List Char) : Option (List Char) :=
  match rangeSepA s with
  | some r => wsBack periodG2 r
  | none => none

/-- The lazy first group of period pattern 1:
`(.+?)(?:から|～|~|－|ー|−|〜)…` — consume one non-newline character at
a time, trying the separator (and the whole remainder) after each. -/
def periodScan (accRev : List Char) : List Char → Option (List Char × List Char)
  | [] => none
  | c :: rest =>
    if c == '\n' then none
    else
      match periodSepTail rest with
      | some g2 => some ((c :: accRev).reverse, g2)
      | none => periodScan (c :: accRev) rest

def period1AfterKw (s : List Char) : Option (List Char × List Char) :=
  colonOpt (wsBack (periodScan [])) s

/-- One position of period pattern 1 (two capture groups). -/
def period1At (s : List Char) : Option (List Char × List Char) :=
  altKw periodKws period1AfterKw s

/-- One position of period pattern 2 (one capture group, same tail as
the fallback deadline pattern). -/
def period2At (s : List Char) : Option (List Char) :=
  altKw periodKws fbAfterKw s

/-- Capture `\d{4}年\d{1,2}月\d{1,2}日`. -/
def westernFullC (s : List Char) : Option (List Char × List Char) :=
  match s with
  | c1 :: c2 :: c3 :: c4 :: c5 :: rest =>
    if isDigitCh c1 && isDigitCh c2 && isDigitCh c3 && isDigitCh c4 &&
        c5 == '年' then
      match num12BeforeC '月' rest with
      | some (ms, r2) =>
        match num12BeforeC '日' r2 with
        | some (ds, r3) =>
          some ([c1, c2, c3, c4] ++ '年' :: (ms ++ '月' :: (ds ++ ['日'])), r3)
        | none => none
      | none => none
    else none
  | _ => none

/-- `re.findall(r'(\d{4}年\d{1,2}月\d{1,2}日|令和\d+年\d{1,2}月\d{1,2}日)', …)`:
all non-overlapping matches, left to right.  Fuelled by the input length
(every step consumes at least one character). -/
def findAllDates (fuel : Nat) (s : List Char) : List (List Char) :=
  match fuel with
  | 0 => []
  | fuel' + 1 =>
    match s with
    | [] => []
    | c :: rest =>
      match (westernFullC (c :: rest)).orElse (fun _ => reiwaFullDateC (c :: rest)) with
      | some (g, r) => g :: findAllDates fuel' r
      | none => findAllDates fuel' rest

/-- The contract-period part of `_parse_detail_page` (base.py lines
297-324), entered when at least one period field is null.  Pattern 1
(two groups) assigns each end only when its parse succeeds and breaks;
pattern 2 (one group) collects full dates inside the group: two or more
assign both fields unconditionally (possibly `None`), exactly one
assigns `period_end` unconditionally, zero falls off the loop. -/
def periodExtract (ps0 pe0 : Option Date) (t : List Char) :
    Option Date × Option Date :=
  match scanSearch period1At t with
  | some (g1, g2) =>
    let sp := parse_date (ofChars g1)
    let ep := parse_date (ofChars g2)
    ((match sp with | some x => some x | none => ps0),
     (match ep with | some x => some x | none => pe0))
  | none =>
    match scanSearch period2At t with
    | some g1 =>
      match findAllDates g1.length g1 with
      | d0 :: d1 :: _ => (parse_date (ofChars d0), parse_date (ofChars d1))
      | [d0] => (ps0, parse_date (ofChars d0))
      | [] => (ps0, pe0)
    | none => (ps0, pe0)

/-- `([\d,]+)\s*円` after the keyword and optional colon of amount
pattern A. -/
def amountTail (s : List Char) : Option (List Char) :=
  let r := s.dropWhile isSpaceCh
  let (tok, r2) := takeCls isNumCommaCh r
  if tok.isEmpty then none
  else
    match r2.dropWhile isSpaceCh with
    | c :: _ => if c == '円' then some tok else none
    | [] => none

/-- Amount pattern A (base.py line 330): keyword list in source order,
with `契約上限額?` unrolled. -/
def amountAAt (s : List Char) : Option (List Char) :=
  altKw ["提案限度価格", "契約限度金額", "委託契約の限度額", "契約の限度額",
    "限度額", "上限額", "上限金額", "予定価格", "委託料", "予算額",
    "参考価格", "契約上限額", "契約上限"] (colonOpt amountTail) s

/-- Amount pattern B (base.py line 331):
`([\d,]+)\s*円\s*(?:以内|を上限|が上限|（税込|（消費税)`. -/
def amountBAt (s : List Char) : Option (List Char) :=
  let (tok, r) := takeCls isNumCommaCh s
  if tok.isEmpty then none
  else
    match r.dropWhile isSpaceCh with
    | c :: r2 =>
      if c == '円' then
        let r3 := r2.dropWhile isSpaceCh
        if (afterLit "以内" r3).isSome || (afterLit "を上限" r3).isSome ||
            (afterLit "が上限" r3).isSome || (afterLit "（税込" r3).isSome ||
            (afterLit "（消費税" r3).isSome then
          some tok
        else none
      else none
    | [] => none

/-- The `max_amount` part of `_parse_detail_page` (base.py lines
328-339): `parse_amount(group + '円')`; a parse returning `None` — or
`0`, which is falsy in the `if parsed:` guard — falls through to the
next pattern. -/
def detailAmount (t : List Char) : Option Int :=
  let tryPat := fun (r : Option (List Char)) =>
    match r with
    | some tok =>
      match parse_amount (ofChars (tok ++ ['円'])) with
      | some v => if v == 0 then none else some v
      | none => none
    | none => none
  match tryPat (scanSearch amountAAt t) with
  | some v => some v
  | none => tryPat (scanSearch amountBAt t)

/-- `BaseScraper._parse_detail_page` (base.py lines 213-339), taking the
page's visible text (`soup.get_text()`): each field group is only
touched when its guard (`if not bid.<field>`) passes; for the period
pair the guard passes when either field is null. -/
def parse_detail_page (bid : BidInfo) (text : String) (today : Date) :
    BidInfo :=
  let t := text.toList.map toHalfDetail
  let ae :=
    match bid.application_end with
    | some d => some d
    | none => detailApplicationEnd t today
  let ast :=
    match bid.application_start with
    | some d => some d
    | none => detailStart t
  let pp :=
    match bid.period_start, bid.period_end with
    | some a, some b => (some a, some b)
    | ps0, pe0 => periodExtract ps0 pe0 t
  let ma :=
    match bid.max_amount with
    | some a => some a
    | none => detailAmount t
  { bid with application_end := ae, application_start := ast,
             period_start := pp.1, period_end := pp.2, max_amount := ma }

/-! ## Reconciliation (scraper_service.py lines 306-423) -/

/-- The persisted `Bid` row (models.py), restricted to the columns
`save_bids` reads or writes.  `scraped_at` is an abstract timestamp
(`datetime.utcnow()` is passed in as `now`); the autoincrement primary
key and the `created_at`/`updated_at` column defaults play no role in
the reconciliation logic. -/
structure Bid where
  title : String
  municipality : String
  announcement_url : String
  source_url : String
  category : Option String
  max_amount : Option Int
  period_start : Option Date
  period_end : Option Date
  application_start : Option Date
  application_end : Option Date
  status : String
  bid_number : Int
  scraped_at : Nat
deriving Repr, DecidableEq

/-- `EXCLUDE_KEYWORDS` (scraper_service.py lines 306-334). -/
def EXCLUDE_KEYWORDS : List String :=
  ["写真の募集", "写真募集", "フォトコンテスト", "職場体験の募集",
   "職場体験の実施及び受入事業所の募集", "ジョブシャドウイング",
   "インターンシップ受入", "受入事業所の募集", "広告募集", "広告の募集",
   "広告掲載の募集", "広告枠の募集", "質問および回答", "質問及び回答",
   "質問・回答", "質問と回答", "Q&A", "Ｑ＆Ａ", "ボランティア募集",
   "参加者募集", "出店者募集", "出展者募集"]

def titleExcluded (title : String) : Bool :=
  EXCLUDE_KEYWORDS.any (fun kw => containsStr kw title)

/-- `cleanup_unwanted_bids` (scraper_service.py lines 337-359): delete
every stored bid whose title contains an exclusion keyword.  The Python
loop deletes keyword by keyword; the net store is the order-preserving
filter, and the return value the number of deleted rows. -/
def cleanup_unwanted_bids (store : List Bid) : List Bid × Nat :=
  ((store.filter fun r => !titleExcluded r.title),
   (store.filter fun r => titleExcluded r.title).length)

/-- The `(title, municipality)` deduplication key. -/
def keyMatch (r : Bid) (b : BidInfo) : Bool :=
  r.title == b.title && r.municipality == b.municipality

/-- The update branch of `save_bids` (scraper_service.py lines 391-401):
overwrite the mutable columns from the candidate; `title`,
`municipality`, `source_url`, `bid_number` (and `created_at`) are left
untouched. -/
def applyUpdate (r : Bid) (b : BidInfo) (now : Nat) : Bid :=
  { r with announcement_url := b.announcement_url, category := b.category,
           max_amount := b.max_amount, period_start := b.period_start,
           period_end := b.period_end, application_start := b.application_start,
           application_end := b.application_end, status := b.status,
           scraped_at := now }

/-- Replace the first record matching the candidate's key (the row
`scalar_one_or_none` returns on a duplicate-free store); identity when
no record matches. -/
def updateFirstMatch (b : BidInfo) (now : Nat) : List Bid → List Bid
  | [] => []
  | r :: rs =>
    if keyMatch r b then applyUpdate r b now :: rs
    else r :: updateFirstMatch b now rs

/-- The insert branch (scraper_service.py lines 403-420). -/
def mkStored (b : BidInfo) (num : Int) (now : Nat) : Bid :=
  { title := b.title, municipality := b.municipality,
    announcement_url := b.announcement_url, source_url := b.source_url,
    category := b.category, max_amount := b.max_amount,
    period_start := b.period_start, period_end := b.period_end,
    application_start := b.application_start,
    application_end := b.application_end, status := b.status,
    bid_number := num, scraped_at := now }

/-- `select(func.max(Bid.bid_number))` with the `or 0` default: 0 on an
empty store, the maximum otherwise.  (Python's `x or 0` differs only
when the maximum itself is falsy, i.e. 0, where both give 0.) -/
def maxBid : List Bid → Int
  | [] => 0
  | r :: rs => rs.foldl (fun a x => max a x.bid_number) r.bid_number

/-- The candidate loop of `save_bids` (scraper_service.py lines
381-420).  Each lookup runs against the current session state, so a
candidate repeated within the batch finds the row inserted moments
before (the ORM autoflushes pending inserts before each query).
Inserted rows are appended in order; `cur` is the in-memory
`current_max`, incremented before use. -/
def save_bids_loop (now : Nat) :
    List Bid → Int → Nat → List BidInfo → List Bid × Int × Nat
  | store, cur, cnt, [] => (store, cur, cnt)
  | store, cur, cnt, b :: rest =>
    if (store.find? (fun r => keyMatch r b)).isSome then
      save_bids_loop now (updateFirstMatch b now store) cur cnt rest
    else
      save_bids_loop now (store ++ [mkStored b (cur + 1) now]) (cur + 1)
        (cnt + 1) rest

/-- `save_bids` (scraper_service.py lines 362-423): cleanup pass, one
max-query for the batch, then the candidate loop.  Returns the new store
and `new_count`. -/
def save_bids (now : Nat) (store : List Bid) (bids : List BidInfo) :
    List Bid × Nat :=
  let cleaned := (cleanup_unwanted_bids store).1
  let r := save_bids_loop now cleaned (maxBid cleaned) 0 bids
  (r.1, r.2.2)

/-! ## Lemmas about the search combinators -/

theorem scanSearch_some {α} {f : List Char → Option α} {s : List Char} {a : α}
    (h : scanSearch f s = some a) : ∃ t, t <:+ s ∧ f t = some a := by
  induction s with
  | nil => exact ⟨[], List.suffix_rfl, h⟩
  | cons c rest ih =>
    rw [scanSearch] at h
    cases hf : f (c :: rest) with
    | some b =>
      rw [hf] at h
      exact ⟨c :: rest, List.suffix_rfl, by rw [hf]; exact h⟩
    | none =>
      rw [hf] at h
      obtain ⟨t, ht, hft⟩ := ih h
      exact ⟨t, ht.trans (List.suffix_cons c rest), hft⟩

theorem containsSub_eq_true_iff {p s : List Char} :
    containsSub p s = true ↔ p <:+: s := by
  induction s with
  | nil =>
    cases p with
    | nil => simp [containsSub]
    | cons c cs => simp [containsSub]
  | cons c rest ih =>
    rw [containsSub, Bool.or_eq_true, List.isPrefixOf_iff_prefix, ih,
      List.infix_cons_iff]

theorem afterLit_some {pat : String} {s r : List Char}
    (h : afterLit pat s = some r) : pat.toList <+: s ∧ r <:+ s := by
  unfold afterLit at h
  split at h
  case isTrue hp =>
    cases h
    exact ⟨List.isPrefixOf_iff_prefix.mp hp, List.drop_suffix _ _⟩
  case isFalse => cases h

theorem takeDigits_suffix (s : List Char) : (takeDigits s).2 <:+ s := by
  induction s with
  | nil => exact List.suffix_rfl
  | cons c cs ih =>
    rw [takeDigits]
    split
    · exact ih.trans (List.suffix_cons c cs)
    · exact List.suffix_rfl

theorem num12Before_suffix {lit : Char} {s : List Char} {v : Nat}
    {r : List Char} (h : num12Before lit s = some (v, r)) : r <:+ s := by
  rcases s with _ | ⟨c1, _ | ⟨c2, _ | ⟨c3, rest⟩⟩⟩ <;>
    simp only [num12Before] at h
  · cases h
  · split_ifs at h
  · split_ifs at h
    cases h
    exact ⟨[c1, c2], rfl⟩
  · split_ifs at h <;> cases h
    · exact ⟨[c1, c2, c3], rfl⟩
    · exact ⟨[c1, c2], rfl⟩

theorem numPlusBefore_suffix {lit : Char} {s : List Char} {v : Nat}
    {r : List Char} (h : numPlusBefore lit s = some (v, r)) : r <:+ s := by
  rcases htd : takeDigits s with ⟨ds, r0⟩
  rw [numPlusBefore, htd] at h
  simp only at h
  split_ifs at h
  rcases r0 with _ | ⟨c, r2⟩
  · cases h
  · simp only at h
    split_ifs at h
    cases h
    refine List.IsSuffix.trans ⟨[c], rfl⟩ ?_
    have hts := takeDigits_suffix s
    rw [htd] at hts
    exact hts

theorem mem_of_prefix_head {c : Char} {cs t : List Char}
    (h : (c :: cs) <+: t) : c ∈ t := by
  obtain ⟨u, rfl⟩ := h
  simp

theorem py4_suffix {s : List Char} {y : Nat} {r : List Char}
    (h : py4 s = some (y, r)) : r <:+ s := by
  match s, h with
  | c1 :: c2 :: c3 :: c4 :: rest, h =>
    simp only [py4] at h
    split_ifs at h
    cases h
    exact ⟨[c1, c2, c3, c4], rfl⟩
  | [], h => exact nomatch h
  | [c1], h => exact nomatch h
  | [c1, c2], h => exact nomatch h
  | [c1, c2, c3], h => exact nomatch h

theorem westernAt_mem {s : List Char} {v : Nat × Nat × Nat}
    (h : westernAt s = some v) : '年' ∈ s := by
  match s, h with
  | c1 :: c2 :: c3 :: c4 :: c5 :: rest, h =>
    simp only [westernAt] at h
    split_ifs at h with hc
    simp only [Bool.and_eq_true, beq_iff_eq] at hc
    rw [hc.2]
    simp
  | [], h => exact nomatch h
  | [c1], h => exact nomatch h
  | [c1, c2], h => exact nomatch h
  | [c1, c2, c3], h => exact nomatch h
  | [c1, c2, c3, c4], h => exact nomatch h

theorem strptimeYMD_mem {a b : Char} {e : Option Char} {s : List Char}
    {v : Nat × Nat × Nat} (h : strptimeYMD a b e s = some v) : a ∈ s := by
  unfold strptimeYMD at h
  cases hp : py4 s with
  | none => rw [hp] at h; cases h
  | some yr =>
    rw [hp] at h
    rcases yr with ⟨y, r1⟩
    cases r1 with
    | nil => exact nomatch h
    | cons c r2 =>
      simp only at h
      split_ifs at h with hc
      have hce : c = a := by simpa using hc
      subst hce
      exact (py4_suffix hp).subset (List.mem_cons_self c r2)

theorem stripChars_eq_self {l : List Char}
    (h : ∀ c ∈ l, isSpaceCh c = false) : stripChars l = l := by
  have key : ∀ m : List Char, (∀ c ∈ m, isSpaceCh c = false) →
      m.dropWhile isSpaceCh = m := by
    intro m hm
    cases m with
    | nil => rfl
    | cons a as =>
      rw [List.dropWhile_cons, hm a (List.mem_cons_self a as)]
      simp
  unfold stripChars
  rw [key l h, key l.reverse (fun c hc => h c (List.mem_reverse.mp hc)),
    List.reverse_reverse]

theorem map_toHalfDigit_eq_self {l : List Char}
    (h : ∀ c ∈ l, toHalfDigit c = c) : l.map toHalfDigit = l := by
  rw [List.map_congr_left h]
  exact List.map_id l

/-- The character class of a bare partial-date string: half-width digits
and the two literals `月`, `日`. -/
def mdClass (c : Char) : Prop :=
  (48 ≤ c.toNat ∧ c.toNat ≤ 57) ∨ c = '月' ∨ c = '日'

instance (c : Char) : Decidable (mdClass c) := by
  unfold mdClass
  infer_instance

theorem mdClass_not_space {c : Char} (h : mdClass c) : isSpaceCh c = false := by
  rcases h with ⟨h1, h2⟩ | rfl | rfl
  · apply Bool.eq_false_iff.mpr
    intro hsp
    simp only [isSpaceCh, Bool.or_eq_true, beq_iff_eq] at hsp
    rcases hsp with ((((((h | h) | h) | h) | h) | h) | h) <;>
      (subst h; revert h1 h2; decide)
  · decide
  · decide

theorem mdClass_toHalf {c : Char} (h : mdClass c) : toHalfDigit c = c := by
  rcases h with ⟨h1, h2⟩ | rfl | rfl
  · have hg : ¬((0xFF10 ≤ c.toNat && c.toNat ≤ 0xFF19) = true) := by
      simp only [Bool.and_eq_true, decide_eq_true_eq, not_and]
      intro h3
      omega
    simp only [toHalfDigit, if_neg hg]
  · decide
  · decide

theorem mdClass_ne {c : Char} (h : mdClass c) :
    c ≠ '令' ∧ c ≠ '年' ∧ c ≠ '/' ∧ c ≠ '-' ∧ c ≠ '.' := by
  rcases h with ⟨h1, h2⟩ | rfl | rfl
  · refine ⟨?_, ?_, ?_, ?_, ?_⟩ <;> (rintro rfl; revert h1 h2; decide)
  · decide
  · decide

/-- On a string free of era markers, year markers and the `strptime`
separators, `parse_date` finds nothing. -/
theorem parse_date_none_of_mdClass {t : List Char}
    (hch : ∀ c ∈ t, mdClass c) : parse_date (ofChars t) = none := by
  have hRei : '令' ∉ t := fun hm => (mdClass_ne (hch _ hm)).1 rfl
  have hYear : '年' ∉ t := fun hm => (mdClass_ne (hch _ hm)).2.1 rfl
  have hT : (stripChars (ofChars t).toList).map toHalfDigit = t := by
    show (stripChars t).map toHalfDigit = t
    rw [stripChars_eq_self (fun c hc => mdClass_not_space (hch c hc)),
      map_toHalfDigit_eq_self (fun c hc => mdClass_toHalf (hch c hc))]
  have hcs : containsSub "令和".toList t = false := by
    cases hc : containsSub "令和".toList t
    · rfl
    · exact absurd ((containsSub_eq_true_iff.mp hc).subset
        (show '令' ∈ "令和".toList by decide)) hRei
  have hw : scanSearch westernAt t = none := by
    cases hw2 : scanSearch westernAt t
    · rfl
    · obtain ⟨u, hu, hfu⟩ := scanSearch_some hw2
      exact absurd (hu.subset (westernAt_mem hfu)) hYear
  have hf1 : strptimeYMD '年' '月' (some '日') t = none := by
    cases hx : strptimeYMD '年' '月' (some '日') t
    · rfl
    · exact absurd (strptimeYMD_mem hx) hYear
  have hf2 : strptimeYMD '/' '/' none t = none := by
    cases hx : strptimeYMD '/' '/' none t
    · rfl
    · exact absurd (strptimeYMD_mem hx)
        (fun hm => (mdClass_ne (hch _ hm)).2.2.1 rfl)
  have hf3 : strptimeYMD '-' '-' none t = none := by
    cases hx : strptimeYMD '-' '-' none t
    · rfl
    · exact absurd (strptimeYMD_mem hx)
        (fun hm => (mdClass_ne (hch _ hm)).2.2.2.1 rfl)
  have hf4 : strptimeYMD '.' '.' none t = none := by
    cases hx : strptimeYMD '.' '.' none t
    · rfl
    · exact absurd (strptimeYMD_mem hx)
        (fun hm => (mdClass_ne (hch _ hm)).2.2.2.2 rfl)
  have hal : afterLit "令和" t = none := by
    cases hx : afterLit "令和" t
    · rfl
    · exact absurd (mem_of_prefix_head (afterLit_some hx).1) hRei
  have hchain : strptimeChain t = none := by
    simp only [strptimeChain, hf1, hf2, hf3, hf4, hal]
  cases t with
  | nil => rfl
  | cons c cs =>
    have hne : (ofChars (c :: cs) == "") = false := by
      apply beq_eq_false_iff_ne.mpr
      intro hcontra
      have := congrArg String.data hcontra
      simp [ofChars] at this
    simp only [parse_date, hne, Bool.false_eq_true, if_false, hT, hcs, hw,
      hchain]

/-- C1: for every partial date string `M月D日` with no explicit year
(digits and the two literals only), parsed with today's date fixed: when
the candidate month is more than 2 months ahead of today's month the
parser infers `thisYear - 1`; otherwise (including exactly 2 months
ahead, and months or days already elapsed this year) it infers
`thisYear`, returning the elapsed date rather than rolling it to next
year.  The result is the Python `date` constructor applied to the
inferred year, so an invalid day propagates as no date. -/
theorem c1_partial_date_year_inference (s : String) (today : Date)
    (m d : Nat) (hch : ∀ c ∈ s.toList, mdClass c)
    (hmd : mdMatch s.toList = some (m, d)) :
    (2 < (m : Int) - today.month →
      parse_flexible_date s today = mkDate (today.year - 1) m d) ∧
    ((m : Int) - today.month ≤ 2 →
      parse_flexible_date s today = mkDate today.year m d) := by
  have hT : (stripChars s.toList).map toHalfDigit = s.toList := by
    rw [stripChars_eq_self (fun c hc => mdClass_not_space (hch c hc)),
      map_toHalfDigit_eq_self (fun c hc => mdClass_toHalf (hch c hc))]
  have hne : (s == "") = false := by
    apply beq_eq_false_iff_ne.mpr
    intro hcontra
    rw [hcontra] at hmd
    exact nomatch hmd
  have hpd : parse_date (ofChars s.toList) = none :=
    parse_date_none_of_mdClass hch
  have key : parse_flexible_date s today =
      (if 2 < (m : Int) - today.month then mkDate (today.year - 1) m d
       else mkDate today.year m d) := by
    simp only [parse_flexible_date, hne, Bool.false_eq_true, if_false, hT,
      hpd, hmd]
    split_ifs with hgt
    · rfl
    · rfl
  constructor
  · intro hgt
    rw [key, if_pos hgt]
  · intro hle
    rw [key, if_neg (not_lt.mpr hle)]

/-- C1 witness: `12月31日` seen on 2025-10-12 is exactly 2 months ahead,
so the current year is kept. -/
theorem c1_witness :
    parse_flexible_date "12月31日" ⟨2025, 10, 12⟩ = mkDate 2025 12 31 :=
  (c1_partial_date_year_inference "12月31日" ⟨2025, 10, 12⟩ 12 31
    (by decide) (by decide)).2 (by decide)

/-- Absence of any numeric-literal character: no decimal digit of either
width, no comma of either width, no dot. -/
def amtFree (c : Char) : Prop :=
  isDigitCh c = false ∧ c ≠ ',' ∧ c ≠ '，' ∧ c ≠ '.'

instance (c : Char) : Decidable (amtFree c) := by
  unfold amtFree
  infer_instance

theorem amtFree_toHalf {c : Char} (h : amtFree c) :
    toHalfAmount c = c ∧ isNumDotCh c = false ∧ isNumCommaCh c = false := by
  obtain ⟨hdig, hcm, hfcm, hdot⟩ := h
  have hdig2 := hdig
  simp only [isDigitCh, Bool.or_eq_false_iff, Bool.and_eq_false_iff,
    decide_eq_false_iff_not, not_le] at hdig2
  have hth : toHalfAmount c = c := by
    unfold toHalfAmount toHalfDigit
    rw [if_neg (by simpa using hfcm), if_neg]
    simp only [Bool.and_eq_true, decide_eq_true_eq, not_and, not_le]
    intro hge
    rcases hdig2.2 with hlt | hgt
    · omega
    · omega
  refine ⟨hth, ?_, ?_⟩
  · simp only [isNumDotCh, isNumCommaCh, Bool.or_eq_false_iff]
    exact ⟨⟨hdig, by simpa using hcm⟩, by simpa using hdot⟩
  · simp only [isNumCommaCh, Bool.or_eq_false_iff]
    exact ⟨hdig, by simpa using hcm⟩

theorem takeCls_ne_nil_exists {cls : Char → Bool} {s tok rest : List Char}
    (h : takeCls cls s = (tok, rest)) (hne : tok ≠ []) :
    ∃ c ∈ s, cls c = true := by
  cases s with
  | nil =>
    rw [takeCls] at h
    cases h
    exact absurd rfl hne
  | cons c cs =>
    rw [takeCls] at h
    split_ifs at h with hc
    · exact ⟨c, List.mem_cons_self c cs, hc⟩
    · cases h
      exact absurd rfl hne

theorem numTokAt_exists {cls : Char → Bool} {lit : Char} {s tok : List Char}
    (h : numTokAt cls lit s = some tok) : ∃ c ∈ s, cls c = true := by
  unfold numTokAt at h
  rcases htk : takeCls cls s with ⟨tk, r⟩
  rw [htk] at h
  simp only at h
  split_ifs at h with he
  exact takeCls_ne_nil_exists htk (by simpa using he)

/-- When the normalised text has no character of the numeric class, each
unit stage of `parse_amount` falls through and the plain stage fails. -/
theorem parse_amount_none_of_amtFree {s : String}
    (hfree : ∀ c ∈ s.toList, amtFree c) : parse_amount s = none := by
  cases hse : (s == "") with
  | true => simp only [parse_amount, hse, if_true]
  | false =>
    have hcls : ∀ c ∈ (stripChars s.toList).map toHalfAmount,
        isNumDotCh c = false ∧ isNumCommaCh c = false := by
      intro c hc
      obtain ⟨c0, hc0, rfl⟩ := List.mem_map.mp hc
      have hmem : c0 ∈ s.toList := by
        have hsub1 := List.dropWhile_sublist isSpaceCh (l := s.toList)
        have hsub2 := List.dropWhile_sublist isSpaceCh
          (l := (s.toList.dropWhile isSpaceCh).reverse)
        unfold stripChars at hc0
        rw [List.mem_reverse] at hc0
        exact hsub1.mem (List.mem_reverse.mp (hsub2.mem hc0))
      obtain ⟨hth, hnd, hnc⟩ := amtFree_toHalf (hfree c0 hmem)
      rw [hth]
      exact ⟨hnd, hnc⟩
    set t := (stripChars s.toList).map toHalfAmount with ht
    have hscan1 : ∀ lit : Char, scanSearch (numTokAt isNumDotCh lit) t = none := by
      intro lit
      cases hx : scanSearch (numTokAt isNumDotCh lit) t with
      | none => rfl
      | some tok =>
        obtain ⟨u, hu, hfu⟩ := scanSearch_some hx
        obtain ⟨c, hcm, hcc⟩ := numTokAt_exists hfu
        rw [(hcls c (hu.subset hcm)).1] at hcc
        cases hcc
    have hscan2 : ∀ lit : Char, scanSearch (numTokAt isNumCommaCh lit) t = none := by
      intro lit
      cases hx : scanSearch (numTokAt isNumCommaCh lit) t with
      | none => rfl
      | some tok =>
        obtain ⟨u, hu, hfu⟩ := scanSearch_some hx
        obtain ⟨c, hcm, hcc⟩ := numTokAt_exists hfu
        rw [(hcls c (hu.subset hcm)).2] at hcc
        cases hcc
    have hplain : amountPlainStage t = none := by
      unfold amountPlainStage
      have hx : scanSearch (fun s2 =>
          let (tok, _) := takeCls isNumCommaCh s2
          if tok.isEmpty then none else some tok) t = none := by
        cases hx2 : scanSearch (fun s2 =>
            let (tok, _) := takeCls isNumCommaCh s2
            if tok.isEmpty then none else some tok) t with
        | none => rfl
        | some tok =>
          obtain ⟨u, hu, hfu⟩ := scanSearch_some hx2
          rcases htk : takeCls isNumCommaCh u with ⟨tk, r⟩
          rw [htk] at hfu
          simp only at hfu
          split_ifs at hfu with he
          obtain ⟨c, hcm, hcc⟩ :=
            takeCls_ne_nil_exists htk (by simpa using he)
          rw [(hcls c (hu.subset hcm)).2] at hcc
          cases hcc
      rw [hx]
    have hstage : ∀ (cls : Char → Bool) (u : Char) (mult : Nat),
        scanSearch (numTokAt cls u) t = none →
        amountUnitStage cls u mult t = none := by
      intro cls u mult hsc
      unfold amountUnitStage
      rw [hsc]
      split_ifs <;> rfl
    simp only [parse_amount, hse, Bool.false_eq_true, if_false, ← ht,
      hstage isNumDotCh '億' 100000000 (hscan1 '億'),
      hstage isNumDotCh '万' 10000 (hscan1 '万'),
      hstage isNumCommaCh '千' 1000 (hscan2 '千'), hplain]

/-- C3: the amount parser applies unit precedence 億 (×100,000,000),
then 万 (×10,000), then 千 (×1,000), else the first comma-grouped
integer literal as plain yen, truncating decimal literals to integer
yen; the four concrete conversions of the specification hold, and a text
containing no numeric-literal character yields no amount. -/
theorem c3_amount_unit_precedence :
    parse_amount "1.5億円" = some 150000000 ∧
    parse_amount "7,800千円" = some 7800000 ∧
    parse_amount "300万円" = some 3000000 ∧
    parse_amount "50,000円" = some 50000 ∧
    ∀ s : String, (∀ c ∈ s.toList, amtFree c) → parse_amount s = none :=
  ⟨rfl, rfl, rfl, rfl, fun _ hfree => parse_amount_none_of_amtFree hfree⟩

/-- C3 witness: the no-literal clause applied to a concrete text. -/
theorem c3_witness : parse_amount "金額未定" = none :=
  c3_amount_unit_precedence.2.2.2.2 "金額未定" (by decide)

/-- C2 counterexample: on 2025-10-12 the current fiscal year is 2025
(令和7), and the specification's example title names 令和3年度 = 2021, a
strictly older fiscal year — yet the eligibility filter's
`is_past_fiscal_year` does not reject it, because its hard-coded list
only reaches three years back. -/
theorem c2_counterexample :
    is_past_fiscal_year "令和3年度〇〇業務委託に関するプロポーザル募集"
      ⟨2025, 10, 12⟩ = false ∧
    extract_fiscal_year_from_title
      "令和3年度〇〇業務委託に関するプロポーザル募集" = some 2021 ∧
    currentFiscalYear ⟨2025, 10, 12⟩ = 2025 ∧ (2021 : Int) < 2025 :=
  ⟨rfl, rfl, rfl, by decide⟩

/-- C2 amended: the filter-service check `is_past_fiscal_year` rejects a
title exactly when it contains one of its six literal year strings (the
three fiscal years immediately preceding the current one, plus
hard-coded full-width 令和６/５/４年度); the scraper-side check
`_is_old_fiscal_year` rejects exactly the titles whose extracted fiscal
year is strictly older than the current fiscal year — and it, not the
filter-service check, rejects the 令和3年度 title of the
specification's example when the current fiscal year is 令和7. -/
theorem c2_fiscal_year_checks (title : String) (today : Date) :
    (is_past_fiscal_year title today = true ↔
      ∃ p ∈ pastYearStrings today, containsStr p title = true) ∧
    (∀ fy, extract_fiscal_year_from_title title = some fy →
      (is_old_fiscal_year title today = true ↔
        fy < currentFiscalYear today)) ∧
    (extract_fiscal_year_from_title title = none →
      is_old_fiscal_year title today = false) ∧
    is_old_fiscal_year "令和3年度〇〇業務委託に関するプロポーザル募集"
      ⟨2025, 10, 12⟩ = true := by
  refine ⟨?_, ?_, ?_, rfl⟩
  · unfold is_past_fiscal_year
    exact List.any_eq_true
  · intro fy hfy
    unfold is_old_fiscal_year
    rw [hfy]
    simp
  · intro hfy
    unfold is_old_fiscal_year
    rw [hfy]

/-- C2 witness: the characterisation applied to the example title. -/
theorem c2_witness :
    is_old_fiscal_year "令和3年度〇〇業務委託に関するプロポーザル募集"
      ⟨2025, 10, 12⟩ = true :=
  ((c2_fiscal_year_checks "令和3年度〇〇業務委託に関するプロポーザル募集"
    ⟨2025, 10, 12⟩).2.1 2021 rfl).mpr (by decide)

/-! ## Activity, recency and the filter invariant -/

theorem is_bid_active_true_elim {bid : BidInfo} {today : Date}
    {bid2 : BidInfo} (h : is_bid_active bid today = (true, bid2)) :
    ∃ d, bid2 = { bid with application_end := some d } ∧
      dateLe today d = true := by
  unfold is_bid_active at h
  cases hae : bid.application_end with
  | some d =>
    rw [hae] at h
    injection h with h1 h2
    refine ⟨d, ?_, h1⟩
    rw [← h2, ← hae]
  | none =>
    rw [hae] at h
    cases hex : extract_deadline_from_title bid.title today with
    | some d =>
      rw [hex] at h
      injection h with h1 h2
      exact ⟨d, h2.symm, h1⟩
    | none =>
      rw [hex] at h
      injection h with h1 h2
      cases h1

theorem is_recently_announced_true_elim {bid : BidInfo} {today : Date}
    {bid2 : BidInfo} (h : is_recently_announced bid today = (true, bid2)) :
    ∃ sd, bid2 = { bid with application_start := some sd } ∧
      (dateLe (subDays today 30) sd = true ∨ sd = today) := by
  unfold is_recently_announced at h
  cases has : bid.application_start with
  | some sd =>
    rw [has] at h
    injection h with h1 h2
    refine ⟨sd, ?_, Or.inl h1⟩
    rw [← h2, ← has]
  | none =>
    rw [has] at h
    cases hex : extract_start_date_from_title bid.title today with
    | some sd =>
      rw [hex] at h
      injection h with h1 h2
      exact ⟨sd, h2.symm, Or.inl h1⟩
    | none =>
      rw [hex] at h
      injection h with h1 h2
      exact ⟨today, h2.symm, Or.inr rfl⟩

/-- C5: the activity test holds exactly when a deadline is determinable
and not passed: a populated `application_end` is compared against today
directly; otherwise the title extractor's date, when found, is stored as
`application_end` and compared the same way; with no determinable
deadline the candidate is excluded. -/
theorem c5_activity_test (bid : BidInfo) (today : Date) :
    (∀ d, bid.application_end = some d →
      is_bid_active bid today = (dateLe today d, bid)) ∧
    (bid.application_end = none →
      ∀ d, extract_deadline_from_title bid.title today = some d →
        is_bid_active bid today =
          (dateLe today d, { bid with application_end := some d })) ∧
    (bid.application_end = none →
      extract_deadline_from_title bid.title today = none →
      is_bid_active bid today = (false, bid)) := by
  refine ⟨?_, ?_, ?_⟩
  · intro d hd
    unfold is_bid_active
    rw [hd]
  · intro h0 d hd
    unfold is_bid_active
    rw [h0, hd]
  · intro h0 hd
    unfold is_bid_active
    rw [h0, hd]

/-- C5 witness: a bid whose deadline comes from the title pattern
`【2月15日締切】` is active on 2025-01-10 and the extracted date is
stored. -/
theorem c5_witness :
    is_bid_active
      { title := "広報ポスターデザイン募集【2月15日締切】",
        municipality := "m", announcement_url := "u", source_url := "s" }
      ⟨2025, 1, 10⟩ =
    (true,
      { title := "広報ポスターデザイン募集【2月15日締切】",
        municipality := "m", announcement_url := "u", source_url := "s",
        application_end := some ⟨2025, 2, 15⟩ }) := by
  rw [(c5_activity_test
    { title := "広報ポスターデザイン募集【2月15日締切】",
      municipality := "m", announcement_url := "u", source_url := "s" }
    ⟨2025, 1, 10⟩).2.1 rfl ⟨2025, 2, 15⟩ rfl]
  rfl

theorem categorize_bid_mem {title cat : String}
    (h : categorize_bid title = some cat) :
    cat = "広報" ∨ cat = "プロモーション" ∨ cat = "イベント" := by
  unfold categorize_bid at h
  obtain ⟨pr, hfind, hfst⟩ := Option.map_eq_some'.mp h
  have hmem := List.mem_of_find?_eq_some hfind
  simp only [KEYWORDS, List.mem_cons, List.not_mem_nil, or_false] at hmem
  rcases hmem with rfl | rfl | rfl
  · exact Or.inl hfst.symm
  · exact Or.inr (Or.inl hfst.symm)
  · exact Or.inr (Or.inr hfst.symm)

/-- The invariant of every bid that `filterBidsStep` lets through. -/
theorem filterBidsStep_invariant {today : Date} {x b : BidInfo}
    (h : filterBidsStep today x = some b) :
    (b.category = some "広報" ∨ b.category = some "プロモーション" ∨
      b.category = some "イベント") ∧
    b.status = "募集中" ∧
    (∃ d, b.application_end = some d ∧ dateLe today d = true) ∧
    (∃ sd, b.application_start = some sd ∧
      (dateLe (subDays today 30) sd = true ∨ sd = today)) := by
  unfold filterBidsStep at h
  split_ifs at h
  cases hcat : categorize_bid x.title with
  | none => rw [hcat] at h; cases h
  | some cat =>
    rw [hcat] at h
    simp only at h
    rcases hact : is_bid_active { x with category := some cat } today with
      ⟨active, bid2⟩
    rw [hact] at h
    simp only at h
    cases active with
    | false => simp only [Bool.not_false, if_true] at h; cases h
    | true =>
      simp only [Bool.not_true, if_false] at h
      rcases hrec : is_recently_announced bid2 today with ⟨recent, bid3⟩
      rw [hrec] at h
      simp only at h
      cases recent with
      | false => simp only [Bool.not_false, if_true] at h; cases h
      | true =>
        simp only [Bool.not_true, if_false] at h
        injection h with hb
        obtain ⟨d, hb2, hdle⟩ := is_bid_active_true_elim hact
        obtain ⟨sd, hb3, hsd⟩ := is_recently_announced_true_elim hrec
        subst hb2
        subst hb3
        subst hb
        refine ⟨?_, rfl, ⟨d, rfl, hdle⟩, ⟨sd, rfl, hsd⟩⟩
        rcases categorize_bid_mem hcat with rfl | rfl | rfl
        · exact Or.inl rfl
        · exact Or.inr (Or.inl rfl)
        · exact Or.inr (Or.inr rfl)

/-- C9: every candidate in the eligibility filter's output has, at
return time, a category from the fixed category set, status `募集中`, a
populated `application_end` that is today or later, and a populated
`application_start` that is within the last 30 days or was stamped to
today when no start date was determinable. -/
theorem c9_filter_output_invariant (today : Date) (bids : List BidInfo) :
    ∀ b ∈ filter_bids today bids,
      (b.category = some "広報" ∨ b.category = some "プロモーション" ∨
        b.category = some "イベント") ∧
      b.status = "募集中" ∧
      (∃ d, b.application_end = some d ∧ dateLe today d = true) ∧
      (∃ sd, b.application_start = some sd ∧
        (dateLe (subDays today 30) sd = true ∨ sd = today)) := by
  induction bids with
  | nil => intro b hb; cases hb
  | cons x rest ih =>
    intro b hb
    rw [filter_bids] at hb
    cases hstep : filterBidsStep today x with
    | none =>
      rw [hstep] at hb
      exact ih b hb
    | some b2 =>
      rw [hstep] at hb
      rcases List.mem_cons.mp hb with rfl | hb2
      · exact filterBidsStep_invariant hstep
      · exact ih b hb2

/-- Concrete candidate for the C9 witness. -/
def c9SampleIn : BidInfo :=
  { title := "広報誌作成業務委託【11月30日締切】", municipality := "m",
    announcement_url := "u", source_url := "s" }

/-- The record the filter emits for `c9SampleIn` on 2025-10-12. -/
def c9SampleOut : BidInfo :=
  { title := "広報誌作成業務委託【11月30日締切】", municipality := "m",
    announcement_url := "u", source_url := "s", category := some "広報",
    application_start := some ⟨2025, 10, 12⟩,
    application_end := some ⟨2025, 11, 30⟩, status := "募集中" }

/-- C9 witness: the invariant instantiated on a concrete filter run. -/
theorem c9_witness :
    (c9SampleOut.category = some "広報" ∨
      c9SampleOut.category = some "プロモーション" ∨
      c9SampleOut.category = some "イベント") ∧
    c9SampleOut.status = "募集中" ∧
    (∃ d, c9SampleOut.application_end = some d ∧
      dateLe ⟨2025, 10, 12⟩ d = true) ∧
    (∃ sd, c9SampleOut.application_start = some sd ∧
      (dateLe (subDays ⟨2025, 10, 12⟩ 30) sd = true ∨
        sd = (⟨2025, 10, 12⟩ : Date))) :=
  c9_filter_output_invariant ⟨2025, 10, 12⟩ [c9SampleIn] c9SampleOut
    (by decide)

theorem infix_of_prefix_of_suffix {p t s : List Char} (h1 : p <+: t)
    (h2 : t <:+ s) : p <:+: s :=
  h1.isInfix.trans h2.isInfix

theorem p1KwClose_kw {t : List Char} (h : p1KwClose t = true) :
    "締切".toList <+: t ∨ "提出期限".toList <+: t ∨ "期限".toList <+: t := by
  unfold p1KwClose at h
  rw [Bool.or_eq_true, Bool.or_eq_true] at h
  rcases h with (h | h) | h
  · cases ha : afterLit "締切" t with
    | none => rw [ha] at h; cases h
    | some r => exact Or.inl (afterLit_some ha).1
  · cases ha : afterLit "提出期限" t with
    | none => rw [ha] at h; cases h
    | some r => exact Or.inr (Or.inl (afterLit_some ha).1)
  · cases ha : afterLit "期限" t with
    | none => rw [ha] at h; cases h
    | some r => exact Or.inr (Or.inr (afterLit_some ha).1)

theorem p1Star_exists {r : List Char} (h : p1Star r = true) :
    ∃ t, t <:+ r ∧ p1KwClose t = true := by
  induction r with
  | nil => exact ⟨[], List.suffix_rfl, h⟩
  | cons c rest ih =>
    rw [p1Star] at h
    split_ifs at h
    · exact ⟨c :: rest, List.suffix_rfl, h⟩
    · rw [Bool.or_eq_true] at h
      rcases h with h | h
      · obtain ⟨t, ht, hk⟩ := ih h
        exact ⟨t, ht.trans (List.suffix_cons c rest), hk⟩
      · exact ⟨c :: rest, List.suffix_rfl, h⟩

theorem p1At_kw {s : List Char} {md : Nat × Nat} (h : p1At s = some md) :
    "締切".toList <:+: s ∨ "期限".toList <:+: s := by
  cases s with
  | nil => cases h
  | cons c rest =>
    rw [p1At] at h
    split_ifs at h
    cases hm : num12Before '月' rest with
    | none => rw [hm] at h; cases h
    | some mr =>
      rw [hm] at h
      rcases mr with ⟨m, r1⟩
      simp only at h
      cases hd : num12Before '日' r1 with
      | none => rw [hd] at h; cases h
      | some dr =>
        rw [hd] at h
        rcases dr with ⟨d, r2⟩
        simp only at h
        split_ifs at h with hstar
        have hsuf : r2 <:+ c :: rest :=
          ((num12Before_suffix hd).trans (num12Before_suffix hm)).trans
            (List.suffix_cons c rest)
        obtain ⟨t, ht, hk⟩ := p1Star_exists hstar
        have htt : t <:+ c :: rest := ht.trans hsuf
        rcases p1KwClose_kw hk with hp | hp | hp
        · exact Or.inl (infix_of_prefix_of_suffix hp htt)
        · exact Or.inr ((show "期限".toList <:+: "提出期限".toList by
            decide).trans (infix_of_prefix_of_suffix hp htt))
        · exact Or.inr (infix_of_prefix_of_suffix hp htt)

theorem p2At_kw {s : List Char} {md : Nat × Nat} (h : p2At s = some md) :
    "締切".toList <:+: s ∨ "期限".toList <:+: s := by
  unfold p2At at h
  cases h1 : afterLit "締切" s with
  | some r => exact Or.inl (afterLit_some h1).1.isInfix
  | none =>
    rw [h1] at h
    cases h2 : afterLit "提出期限" s with
    | some r =>
      exact Or.inr ((show "期限".toList <:+: "提出期限".toList by
        decide).trans (afterLit_some h2).1.isInfix)
    | none =>
      rw [h2] at h
      cases h3 : afterLit "応募期限" s with
      | some r =>
        exact Or.inr ((show "期限".toList <:+: "応募期限".toList by
          decide).trans (afterLit_some h3).1.isInfix)
      | none =>
        rw [h3] at h
        cases h4 : afterLit "申込期限" s with
        | some r =>
          exact Or.inr ((show "期限".toList <:+: "申込期限".toList by
            decide).trans (afterLit_some h4).1.isInfix)
        | none =>
          rw [h4] at h
          cases h5 : afterLit "受付期限" s with
          | some r =>
            exact Or.inr ((show "期限".toList <:+: "受付期限".toList by
              decide).trans (afterLit_some h5).1.isInfix)
          | none => rw [h5] at h; cases h

theorem p3At_kw {s : List Char} {ymd : Nat × Nat × Nat}
    (h : p3At s = some ymd) :
    "締切".toList <:+: s ∨ "期限".toList <:+: s := by
  unfold p3At at h
  cases h1 : afterLit "締切" s with
  | some r => exact Or.inl (afterLit_some h1).1.isInfix
  | none =>
    rw [h1] at h
    cases h2 : afterLit "提出期限" s with
    | some r =>
      exact Or.inr ((show "期限".toList <:+: "提出期限".toList by
        decide).trans (afterLit_some h2).1.isInfix)
    | none =>
      rw [h2] at h
      cases h3 : afterLit "応募期限" s with
      | some r =>
        exact Or.inr ((show "期限".toList <:+: "応募期限".toList by
          decide).trans (afterLit_some h3).1.isInfix)
      | none =>
        rw [h3] at h
        cases h4 : afterLit "申込期限" s with
        | some r =>
          exact Or.inr ((show "期限".toList <:+: "申込期限".toList by
            decide).trans (afterLit_some h4).1.isInfix)
        | none =>
          rw [h4] at h
          cases h5 : afterLit "受付期限" s with
          | some r =>
            exact Or.inr ((show "期限".toList <:+: "受付期限".toList by
              decide).trans (afterLit_some h5).1.isInfix)
          | none => rw [h5] at h; cases h

/-- C10: a title containing a complete Reiwa date (found by the generic
pattern 4) but no deadline-marker keyword — neither `締切` nor `期限`,
which every keyword of patterns 1 to 3 contains — still has that date
returned as the deadline by the title extractor, for every today. -/
theorem c10_bare_reiwa_date_is_deadline (title : String) (today : Date)
    (y m d : Nat) (hkw1 : containsStr "締切" title = false)
    (hkw2 : containsStr "期限" title = false)
    (hp4 : scanSearch p4At title.toList = some (y, m, d))
    (hv : isValidDate ⟨(y : Int) + 2018, (m : Int), (d : Int)⟩ = true) :
    extract_deadline_from_title title today =
      some ⟨(y : Int) + 2018, (m : Int), (d : Int)⟩ := by
  have hni1 : ¬("締切".toList <:+: title.toList) := fun hin =>
    absurd (containsSub_eq_true_iff.mpr hin)
      (by rw [containsStr] at hkw1; rw [hkw1]; exact Bool.false_ne_true)
  have hni2 : ¬("期限".toList <:+: title.toList) := fun hin =>
    absurd (containsSub_eq_true_iff.mpr hin)
      (by rw [containsStr] at hkw2; rw [hkw2]; exact Bool.false_ne_true)
  have h1 : scanSearch p1At title.toList = none := by
    cases hx : scanSearch p1At title.toList with
    | none => rfl
    | some md2 =>
      obtain ⟨t, ht, hft⟩ := scanSearch_some hx
      rcases p1At_kw hft with hin | hin
      · exact absurd (hin.trans ht.isInfix) hni1
      · exact absurd (hin.trans ht.isInfix) hni2
  have h2 : scanSearch p2At title.toList = none := by
    cases hx : scanSearch p2At title.toList with
    | none => rfl
    | some md2 =>
      obtain ⟨t, ht, hft⟩ := scanSearch_some hx
      rcases p2At_kw hft with hin | hin
      · exact absurd (hin.trans ht.isInfix) hni1
      · exact absurd (hin.trans ht.isInfix) hni2
  have h3 : scanSearch p3At title.toList = none := by
    cases hx : scanSearch p3At title.toList with
    | none => rfl
    | some md2 =>
      obtain ⟨t, ht, hft⟩ := scanSearch_some hx
      rcases p3At_kw hft with hin | hin
      · exact absurd (hin.trans ht.isInfix) hni1
      · exact absurd (hin.trans ht.isInfix) hni2
  simp only [extract_deadline_from_title, h1, h2, h3, hp4]
  rw [mkDate, if_pos hv]

/-- C10 witness: a title whose only date is an announcement date, with
no deadline wording at all, still gets it back as the deadline. -/
theorem c10_witness :
    extract_deadline_from_title "令和7年3月15日公示の案件" ⟨2025, 1, 10⟩ =
      some ⟨2025, 3, 15⟩ :=
  c10_bare_reiwa_date_is_deadline "令和7年3月15日公示の案件" ⟨2025, 1, 10⟩
    7 3 15 (by decide) (by decide) (by decide) (by decide)

/-- All-null sample candidate used by the detail-page claims. -/
def detailSample : BidInfo :=
  { title := "t", municipality := "m", announcement_url := "u",
    source_url := "s" }

/-- C4: deadline extraction from a keyword-anchored date range takes the
second (end) date — on the specification's own text the result is
2025-01-24 — and, generally, a matched range end that is a bare day of
month inherits the month of the range's start date before flexible
parsing, while a full end date is parsed as is. -/
theorem c4_range_end_date :
    (parse_detail_page detailSample
      "参加表明書の受付期間　令和7年1月10日（金）から令和7年1月24日（金）まで"
      ⟨2025, 1, 5⟩).application_end = some ⟨2025, 1, 24⟩ ∧
    (parse_detail_page detailSample "提出期間　1月10日から30日まで"
      ⟨2025, 1, 5⟩).application_end = some ⟨2025, 1, 30⟩ ∧
    (∀ (today : Date) (g1 g2 mc r : List Char), isBareDay g2 = true →
      scanSearch (num12BeforeC '月') g1 = some (mc, r) →
      tryRangeOne (some (g1, g2)) today =
        parse_flexible_date (ofChars (mc ++ '月' :: g2)) today) ∧
    (∀ (today : Date) (g1 g2 : List Char), isBareDay g2 = false →
      tryRangeOne (some (g1, g2)) today =
        parse_flexible_date (ofChars g2) today) := by
  refine ⟨rfl, rfl, ?_, ?_⟩
  · intro today g1 g2 mc r hb hm
    simp only [tryRangeOne, hb, if_true, hm]
  · intro today g1 g2 hb
    simp only [tryRangeOne, hb, Bool.false_eq_true, if_false]

/-- C4 witness: the bare-day clause applied to the concrete range
`1月10日から30日`. -/
theorem c4_witness :
    tryRangeOne (some ("1月10日".toList, "30日".toList)) ⟨2025, 1, 5⟩ =
      parse_flexible_date (ofChars (['1'] ++ '月' :: "30日".toList))
        ⟨2025, 1, 5⟩ :=
  c4_range_end_date.2.2.1 ⟨2025, 1, 5⟩ "1月10日".toList "30日".toList
    ['1'] "10日".toList (by decide) (by decide)

/-- Candidate with a populated `period_end` (and null `period_start`)
for the C8 counterexample. -/
def c8Sample : BidInfo :=
  { title := "t", municipality := "m", announcement_url := "u",
    source_url := "s", max_amount := some 1,
    period_end := some ⟨2099, 1, 1⟩,
    application_start := some ⟨2025, 1, 1⟩,
    application_end := some ⟨2025, 2, 1⟩ }

/-- C8 counterexample: `_parse_detail_page` does overwrite a populated
field.  With `period_start` null and `period_end` already 2099-01-01,
a matched contract-period range replaces `period_end` with the range's
end date. -/
theorem c8_counterexample :
    c8Sample.period_end = some ⟨2099, 1, 1⟩ ∧
    (parse_detail_page c8Sample "履行期間：令和7年4月1日から令和8年3月31日まで"
      ⟨2025, 1, 5⟩).period_end = some ⟨2026, 3, 31⟩ :=
  ⟨rfl, rfl⟩

/-- C8 amended: the detail-page extractor never overwrites a populated
`application_end`, `application_start` or `max_amount`, and leaves both
period fields untouched when both are populated; but when exactly one
period field is null, a matched contract-period pattern may overwrite
the populated one (as the counterexample shows). -/
theorem c8_no_overwrite_except_period (bid : BidInfo) (text : String)
    (today : Date) :
    (∀ d, bid.application_end = some d →
      (parse_detail_page bid text today).application_end = some d) ∧
    (∀ d, bid.application_start = some d →
      (parse_detail_page bid text today).application_start = some d) ∧
    (∀ a, bid.max_amount = some a →
      (parse_detail_page bid text today).max_amount = some a) ∧
    (∀ d1 d2, bid.period_start = some d1 → bid.period_end = some d2 →
      (parse_detail_page bid text today).period_start = some d1 ∧
      (parse_detail_page bid text today).period_end = some d2) := by
  refine ⟨?_, ?_, ?_, ?_⟩
  · intro d hd
    simp only [parse_detail_page, hd]
  · intro d hd
    simp only [parse_detail_page, hd]
  · intro a ha
    simp only [parse_detail_page, ha]
  · intro d1 d2 h1 h2
    constructor <;> simp only [parse_detail_page, h1, h2]

/-- C8 witness: the no-overwrite clauses applied to `c8Sample`, whose
`application_end`, `application_start` and `max_amount` are populated. -/
theorem c8_witness :
    (parse_detail_page c8Sample
      "履行期間：令和7年4月1日から令和8年3月31日まで"
      ⟨2025, 1, 5⟩).application_end = some ⟨2025, 2, 1⟩ ∧
    (parse_detail_page c8Sample
      "履行期間：令和7年4月1日から令和8年3月31日まで"
      ⟨2025, 1, 5⟩).max_amount = some 1 :=
  ⟨(c8_no_overwrite_except_period c8Sample
      "履行期間：令和7年4月1日から令和8年3月31日まで" ⟨2025, 1, 5⟩).1
    ⟨2025, 2, 1⟩ rfl,
   (c8_no_overwrite_except_period c8Sample
      "履行期間：令和7年4月1日から令和8年3月31日まで" ⟨2025, 1, 5⟩).2.2.1
    1 rfl⟩

/-! ## Reconciliation lemmas -/

/-- The `n` consecutive integers starting at `s`. -/
def numsFrom (s : Int) (n : Nat) : List Int :=
  (List.range n).map (fun i : Nat => s + (i : Int))

/-- The deduplication keys of a store, in order. -/
def storeKeys (l : List Bid) : List (String × String) :=
  l.map (fun r => (r.title, r.municipality))

/-- Key plus sequence number of a stored bid — everything an update
leaves untouched. -/
def keyNum (r : Bid) : (String × String) × Int :=
  ((r.title, r.municipality), r.bid_number)

theorem numsFrom_snoc (s : Int) (n : Nat) :
    numsFrom s n ++ [s + n] = numsFrom s (n + 1) := by
  unfold numsFrom
  rw [List.range_succ, List.map_append]
  rfl

theorem updateFirstMatch_map_keyNum (b : BidInfo) (now : Nat)
    (l : List Bid) :
    (updateFirstMatch b now l).map keyNum = l.map keyNum := by
  induction l with
  | nil => rfl
  | cons r rs ih =>
    rw [updateFirstMatch]
    split_ifs
    · rfl
    · rw [List.map_cons, List.map_cons, ih]

theorem updateFirstMatch_map_num (b : BidInfo) (now : Nat) (l : List Bid) :
    (updateFirstMatch b now l).map Bid.bid_number =
      l.map Bid.bid_number := by
  induction l with
  | nil => rfl
  | cons r rs ih =>
    rw [updateFirstMatch]
    split_ifs
    · rfl
    · rw [List.map_cons, List.map_cons, ih]

theorem updateFirstMatch_length (b : BidInfo) (now : Nat) (l : List Bid) :
    (updateFirstMatch b now l).length = l.length := by
  have := congrArg List.length (updateFirstMatch_map_num b now l)
  simpa using this

/-- Core invariant of the candidate loop: the suffix of rows appended
after position `k` carries exactly the consecutive numbers
`s0, s0+1, …`, and the in-memory counter is the last one assigned. -/
theorem save_bids_loop_suffix (now : Nat) (bids : List BidInfo) :
    ∀ (store : List Bid) (s0 : Int) (cnt k : Nat), k ≤ store.length →
    (store.drop k).map Bid.bid_number = numsFrom s0 cnt →
    ((save_bids_loop now store (s0 + cnt - 1) cnt bids).1.drop k).map
        Bid.bid_number =
      numsFrom s0 (save_bids_loop now store (s0 + cnt - 1) cnt bids).2.2 ∧
    (save_bids_loop now store (s0 + cnt - 1) cnt bids).2.1 =
      s0 + (save_bids_loop now store (s0 + cnt - 1) cnt bids).2.2 - 1 := by
  induction bids with
  | nil =>
    intro store s0 cnt k hk hsuf
    rw [save_bids_loop]
    exact ⟨hsuf, rfl⟩
  | cons b rest ih =>
    intro store s0 cnt k hk hsuf
    rw [save_bids_loop]
    split_ifs
    · have hmap := updateFirstMatch_map_num b now store
      have hlen : k ≤ (updateFirstMatch b now store).length := by
        rw [updateFirstMatch_length]
        exact hk
      have hsuf2 : ((updateFirstMatch b now store).drop k).map
          Bid.bid_number = numsFrom s0 cnt := by
        rw [List.map_drop, hmap, ← List.map_drop, hsuf]
      exact ih (updateFirstMatch b now store) s0 cnt k hlen hsuf2
    · have harith : s0 + cnt - 1 + 1 = s0 + (cnt + 1) - 1 := by ring
      have hlen2 : k ≤ (store ++ [mkStored b (s0 + cnt - 1 + 1) now]).length := by
        rw [List.length_append]
        omega
      have hsuf2 : ((store ++ [mkStored b (s0 + cnt - 1 + 1) now]).drop k).map
          Bid.bid_number = numsFrom s0 (cnt + 1) := by
        rw [List.drop_append_of_le_length hk, List.map_append, hsuf]
        have : (mkStored b (s0 + cnt - 1 + 1) now).bid_number = s0 + cnt := by
          unfold mkStored
          simp only
          ring
        simp only [List.map_cons, List.map_nil, this]
        exact numsFrom_snoc s0 cnt
      have := ih (store ++ [mkStored b (s0 + cnt - 1 + 1) now]) s0 (cnt + 1)
        k hlen2 hsuf2
      rw [harith] at this ⊢
      exact this

theorem numsFrom_pairwise (s : Int) (n : Nat) :
    List.Pairwise (· < ·) (numsFrom s n) := by
  unfold numsFrom
  refine List.Pairwise.map _ ?_ (List.pairwise_lt_range n)
  intro a b hab
  omega

/-- C7: within one reconciliation batch, the `bid_number` values given
to newly inserted rows (the suffix appended after the cleaned store) are
exactly `max(existing)+1, max(existing)+2, …` in insertion order — in
particular strictly increasing and duplicate-free — for every store and
candidate list.  The store is assumed duplicate-free on the
`(title, municipality)` key, the regime in which the embedded
first-match lookup coincides with the ORM's `scalar_one_or_none`. -/
theorem c7_bid_number_assignment (now : Nat) (store : List Bid)
    (bids : List BidInfo)
    (_hkeys : (storeKeys (cleanup_unwanted_bids store).1).Nodup) :
    ((save_bids now store bids).1.drop
        (cleanup_unwanted_bids store).1.length).map Bid.bid_number =
      numsFrom (maxBid (cleanup_unwanted_bids store).1 + 1)
        (save_bids now store bids).2 ∧
    List.Pairwise (· < ·)
      (((save_bids now store bids).1.drop
        (cleanup_unwanted_bids store).1.length).map Bid.bid_number) ∧
    (((save_bids now store bids).1.drop
        (cleanup_unwanted_bids store).1.length).map Bid.bid_number).Nodup := by
  have harg : (maxBid (cleanup_unwanted_bids store).1 + 1) +
      ((0 : Nat) : Int) - 1 = maxBid (cleanup_unwanted_bids store).1 := by
    simp
  have hbase := save_bids_loop_suffix now bids
    (cleanup_unwanted_bids store).1
    (maxBid (cleanup_unwanted_bids store).1 + 1) 0
    (cleanup_unwanted_bids store).1.length le_rfl
    (by simp [numsFrom])
  rw [harg] at hbase
  have heq : ((save_bids now store bids).1.drop
      (cleanup_unwanted_bids store).1.length).map Bid.bid_number =
      numsFrom (maxBid (cleanup_unwanted_bids store).1 + 1)
        (save_bids now store bids).2 := hbase.1
  refine ⟨heq, ?_, ?_⟩
  · rw [heq]
    exact numsFrom_pairwise _ _
  · rw [heq]
    exact (numsFrom_pairwise _ _).imp ne_of_lt

/-- C7 witness: two fresh candidates sharing a municipality get numbers
1 and 2 against an empty store. -/
theorem c7_witness :
    ((save_bids 5 []
        [{ title := "a", municipality := "X", announcement_url := "u",
           source_url := "s" },
         { title := "b", municipality := "X", announcement_url := "u",
           source_url := "s" }]).1.drop
      (cleanup_unwanted_bids []).1.length).map Bid.bid_number =
    numsFrom (maxBid (cleanup_unwanted_bids []).1 + 1)
      (save_bids 5 []
        [{ title := "a", municipality := "X", announcement_url := "u",
           source_url := "s" },
         { title := "b", municipality := "X", announcement_url := "u",
           source_url := "s" }]).2 :=
  (c7_bid_number_assignment 5 []
    [{ title := "a", municipality := "X", announcement_url := "u",
       source_url := "s" },
     { title := "b", municipality := "X", announcement_url := "u",
       source_url := "s" }] (by decide)).1

theorem updateFirstMatch_any_key (b2 b : BidInfo) (now : Nat)
    (l : List Bid) :
    (updateFirstMatch b2 now l).any (fun r => keyMatch r b) =
      l.any (fun r => keyMatch r b) := by
  induction l with
  | nil => rfl
  | cons r rs ih =>
    rw [updateFirstMatch]
    split_ifs
    · rfl
    · rw [List.any_cons, List.any_cons, ih]

theorem updateFirstMatch_map_title (b : BidInfo) (now : Nat)
    (l : List Bid) :
    (updateFirstMatch b now l).map Bid.title = l.map Bid.title := by
  induction l with
  | nil => rfl
  | cons r rs ih =>
    rw [updateFirstMatch]
    split_ifs
    · rfl
    · rw [List.map_cons, List.map_cons, ih]

theorem save_bids_loop_any_key (now : Nat) (b : BidInfo) :
    ∀ (bids : List BidInfo) (store : List Bid) (cur : Int) (cnt : Nat),
    store.any (fun r => keyMatch r b) = true →
    (save_bids_loop now store cur cnt bids).1.any
      (fun r => keyMatch r b) = true := by
  intro bids
  induction bids with
  | nil =>
    intro store cur cnt h
    rw [save_bids_loop]
    exact h
  | cons b2 rest ih =>
    intro store cur cnt h
    rw [save_bids_loop]
    split_ifs
    · exact ih _ _ _ (by rw [updateFirstMatch_any_key]; exact h)
    · refine ih _ _ _ ?_
      rw [List.any_append, h]
      rfl

theorem save_bids_loop_key_present (now : Nat) :
    ∀ (bids : List BidInfo) (store : List Bid) (cur : Int) (cnt : Nat)
      (b : BidInfo), b ∈ bids →
    (save_bids_loop now store cur cnt bids).1.any
      (fun r => keyMatch r b) = true := by
  intro bids
  induction bids with
  | nil =>
    intro _ _ _ b hb
    cases hb
  | cons b2 rest ih =>
    intro store cur cnt b hb
    rw [save_bids_loop]
    rcases List.mem_cons.mp hb with rfl | hb2
    · split_ifs with hfind
      · apply save_bids_loop_any_key
        rw [updateFirstMatch_any_key]
        obtain ⟨x, hx, hpx⟩ := List.find?_isSome.mp hfind
        exact List.any_eq_true.mpr ⟨x, hx, hpx⟩
      · apply save_bids_loop_any_key
        rw [List.any_append, Bool.or_eq_true]
        right
        simp [keyMatch, mkStored]
    · split_ifs
      · exact ih _ _ _ b hb2
      · exact ih _ _ _ b hb2

theorem save_bids_loop_all_found (now : Nat) :
    ∀ (bids : List BidInfo) (store : List Bid) (cur : Int) (cnt : Nat),
    (∀ b ∈ bids, store.any (fun r => keyMatch r b) = true) →
    (save_bids_loop now store cur cnt bids).1.map keyNum =
      store.map keyNum ∧
    (save_bids_loop now store cur cnt bids).2.2 = cnt := by
  intro bids
  induction bids with
  | nil =>
    intro store cur cnt _
    rw [save_bids_loop]
    exact ⟨rfl, rfl⟩
  | cons b rest ih =>
    intro store cur cnt h
    rw [save_bids_loop]
    split_ifs with hfind
    · have hrec := ih (updateFirstMatch b now store) cur cnt (fun b2 hb2 => by
        rw [updateFirstMatch_any_key]
        exact h b2 (List.mem_cons_of_mem _ hb2))
      refine ⟨?_, hrec.2⟩
      rw [hrec.1, updateFirstMatch_map_keyNum]
    · exfalso
      apply hfind
      obtain ⟨x, hx, hpx⟩ :=
        List.any_eq_true.mp (h b (List.mem_cons_self b rest))
      exact List.find?_isSome.mpr ⟨x, hx, hpx⟩

theorem save_bids_loop_title_mem (now : Nat) :
    ∀ (bids : List BidInfo) (store : List Bid) (cur : Int) (cnt : Nat)
      (r : Bid), r ∈ (save_bids_loop now store cur cnt bids).1 →
    r.title ∈ store.map Bid.title ∨ r.title ∈ bids.map BidInfo.title := by
  intro bids
  induction bids with
  | nil =>
    intro store cur cnt r hr
    rw [save_bids_loop] at hr
    exact Or.inl (List.mem_map_of_mem _ hr)
  | cons b rest ih =>
    intro store cur cnt r hr
    rw [save_bids_loop] at hr
    split_ifs at hr
    · rcases ih _ _ _ r hr with h1 | h2
      · left
        rwa [updateFirstMatch_map_title] at h1
      · right
        rw [List.map_cons]
        exact List.mem_cons_of_mem _ h2
    · rcases ih _ _ _ r hr with h1 | h2
      · rw [List.map_append] at h1
        rcases List.mem_append.mp h1 with ha | hb2
        · exact Or.inl ha
        · right
          simp only [List.map_cons, List.map_nil,
            List.mem_singleton] at hb2
          rw [List.map_cons, hb2]
          exact List.mem_cons_self _ _
      · right
        rw [List.map_cons]
        exact List.mem_cons_of_mem _ h2

/-- C6 counterexample: reconciling the same two-candidate list twice
against an initially empty store is not idempotent when a title matches
a cleanup exclusion keyword.  The `Q&A` record inserted by run 1 is
deleted by run 2's cleanup pass and re-inserted with a fresh number:
the second `new_count` is 1, not 0, and the stored numbers change from
`[1, 2]` to `[2, 3]`. -/
theorem c6_counterexample :
    (save_bids 1 []
      [{ title := "Q&A資料", municipality := "X", announcement_url := "u",
         source_url := "s" },
       { title := "広報業務", municipality := "X", announcement_url := "u",
         source_url := "s" }]).1.map Bid.bid_number = [1, 2] ∧
    (save_bids 2
      (save_bids 1 []
        [{ title := "Q&A資料", municipality := "X",
           announcement_url := "u", source_url := "s" },
         { title := "広報業務", municipality := "X",
           announcement_url := "u", source_url := "s" }]).1
      [{ title := "Q&A資料", municipality := "X", announcement_url := "u",
         source_url := "s" },
       { title := "広報業務", municipality := "X", announcement_url := "u",
         source_url := "s" }]).2 = 1 ∧
    (save_bids 2
      (save_bids 1 []
        [{ title := "Q&A資料", municipality := "X",
           announcement_url := "u", source_url := "s" },
         { title := "広報業務", municipality := "X",
           announcement_url := "u", source_url := "s" }]).1
      [{ title := "Q&A資料", municipality := "X", announcement_url := "u",
         source_url := "s" },
       { title := "広報業務", municipality := "X", announcement_url := "u",
         source_url := "s" }]).1.map Bid.bid_number = [2, 3] :=
  ⟨rfl, rfl, rfl⟩

/-- C6 amended: for candidate lists none of whose titles contains a
cleanup exclusion keyword, reconciliation against an empty store is
idempotent — the second run produces `new_count = 0` (every candidate
becomes an update matched by title and municipality) and leaves every
record's key and `bid_number` unchanged. -/
theorem c6_reconcile_idempotent (now now2 : Nat) (bids : List BidInfo)
    (hfree : ∀ b ∈ bids, titleExcluded b.title = false) :
    (save_bids now2 (save_bids now [] bids).1 bids).2 = 0 ∧
    (save_bids now2 (save_bids now [] bids).1 bids).1.map keyNum =
      (save_bids now [] bids).1.map keyNum := by
  have hs1loop : (save_bids now [] bids).1 =
      (save_bids_loop now [] 0 0 bids).1 := rfl
  have htitle : ∀ r ∈ (save_bids now [] bids).1,
      titleExcluded r.title = false := by
    intro r hr
    rw [hs1loop] at hr
    rcases save_bids_loop_title_mem now bids [] 0 0 r hr with h1 | h2
    · simp at h1
    · obtain ⟨b, hb, hbt⟩ := List.mem_map.mp h2
      rw [← hbt]
      exact hfree b hb
  have hcleans1 : (cleanup_unwanted_bids (save_bids now [] bids).1).1 =
      (save_bids now [] bids).1 := by
    unfold cleanup_unwanted_bids
    simp only
    apply List.filter_eq_self.mpr
    intro r hr
    rw [htitle r hr]
    rfl
  have hpres : ∀ b ∈ bids,
      (save_bids now [] bids).1.any (fun r => keyMatch r b) = true := by
    intro b hb
    rw [hs1loop]
    exact save_bids_loop_key_present now bids [] 0 0 b hb
  have hrun2 := save_bids_loop_all_found now2 bids (save_bids now [] bids).1
    (maxBid (save_bids now [] bids).1) 0 hpres
  constructor
  · have hdef : (save_bids now2 (save_bids now [] bids).1 bids).2 =
        (save_bids_loop now2
          (cleanup_unwanted_bids (save_bids now [] bids).1).1
          (maxBid (cleanup_unwanted_bids (save_bids now [] bids).1).1) 0
          bids).2.2 := rfl
    rw [hdef, hcleans1]
    exact hrun2.2
  · have hdef : (save_bids now2 (save_bids now [] bids).1 bids).1 =
        (save_bids_loop now2
          (cleanup_unwanted_bids (save_bids now [] bids).1).1
          (maxBid (cleanup_unwanted_bids (save_bids now [] bids).1).1) 0
          bids).1 := rfl
    rw [hdef, hcleans1]
    exact hrun2.1

/-- C6 witness: a single clean-titled candidate reconciled twice — the
second run inserts nothing. -/
theorem c6_witness :
    (save_bids 2
      (save_bids 1 []
        [{ title := "広報業務", municipality := "X",
           announcement_url := "u", source_url := "s" }]).1
      [{ title := "広報業務", municipality := "X", announcement_url := "u",
         source_url := "s" }]).2 = 0 :=
  (c6_reconcile_idempotent 1 2
    [{ title := "広報業務", municipality := "X", announcement_url := "u",
       source_url := "s" }] (by decide)).1
